import Mathlib

/-! # Service-account utilities of peirates: a shallow embedding

Embeds `internal/service_account_utils.go`:

* the identity registry (`AddNewServiceAccount`, `listServiceAccounts`,
  `switchServiceAccounts`),
* the connection binder (`assignServiceAccountToConnection`,
  `assignAuthenticationCertificateAndKeyToConnection`),
* the token decoders (`parseServiceAccountJWT_return_sub`,
  `parseServiceAccountJWT`),
* the import of a token from a secret (`getServiceAccountTokenFromSecret`).

Conventions of the embedding.

* A Go `string` is a Lean `String`: the model covers Go strings that hold
  valid UTF-8.  A `[]byte` is a `List Nat` whose elements are below 256.
* A slice passed by pointer and mutated (`*[]ServiceAccount`) and a struct
  passed by pointer (`*ServerInfo`) become explicit state passing: the
  function returns the new value.
* `time.Now()`, the random part of a temporary file name and the success of
  file-system calls are inputs of the model.  So are the answers of what lies
  outside the file: the library go-jose (`jwt.ParseSigned`,
  `UnsafeClaimsWithoutVerification`), the terminal (`fmt.Scanln`, `fmt.Sscan`)
  and `runKubectlSimple`.
* The standard library is modelled: `strings`, `unicode/utf8`,
  `encoding/base64`, `encoding/json` and the conversion `int64(float64)`.
* A function that can panic returns an `Outcome`.
* Text written to the terminal (`println`, `fmt.Printf`, the `Verbose`
  debugging lines) is not part of the state and is left out; the text
  `listServiceAccounts` builds is its result.
* Library errors (`base64.CorruptInputError`, the errors of `encoding/json`)
  are kept as error kinds; their message text is not modelled.
-/

namespace Peirates

/-! ## Data model -/

/-- ServiceAccount stores service account information.  `DiscoveryTime` is a
`time.Time` in the source; here it is an abstract clock reading. -/
structure ServiceAccount where
  Name : String
  Token : String
  DiscoveryTime : Nat
  DiscoveryMethod : String
  deriving DecidableEq, Repr

/-- ClientCertificateKeyPair stores certificate and key information for one
principal. -/
structure ClientCertificateKeyPair where
  Name : String
  ClientKeyData : String
  ClientCertificateData : String
  APIServer : String
  CACert : String
  deriving DecidableEq, Repr

/-- Modelled from the spec: the `ServerInfo` struct (the connection context) is
declared outside `service_account_utils.go`.  The eight named fields are the
ones this file reads or writes (token name/value, client cert name/value,
client key value, CA material path, API server, active namespace); `Rest`
stands for every other field of the struct, which this file never touches. -/
structure ServerInfo (ρ : Type) where
  APIServer : String
  Token : String
  TokenName : String
  ClientCertData : String
  ClientKeyData : String
  ClientCertName : String
  CAPath : String
  Namespace : String
  Rest : ρ
  deriving DecidableEq, Repr

/-! ## `strings.TrimSpace` -/

/-- Go's `unicode.IsSpace`: the Latin-1 spaces `\t \n \v \f \r`, space, U+0085
and U+00A0, and the other code points with the White_Space property. -/
def unicode.IsSpace (r : Char) : Bool :=
  let n := r.toNat
  n == 0x09 || n == 0x0A || n == 0x0B || n == 0x0C || n == 0x0D || n == 0x20 ||
  n == 0x85 || n == 0xA0 || n == 0x1680 || (0x2000 ≤ n && n ≤ 0x200A) ||
  n == 0x2028 || n == 0x2029 || n == 0x202F || n == 0x205F || n == 0x3000

/-- Go's `strings.TrimSpace`: the string without its leading and trailing
white space. -/
def strings.TrimSpace (s : String) : String :=
  String.mk ((s.data.dropWhile unicode.IsSpace).reverse.dropWhile unicode.IsSpace).reverse

/-! ## Identity registry -/

/-- The `for _, sa := range *serviceAccountList` loop of `AddNewServiceAccount`:
`true` when some entry has the same trimmed name, in which case the source
returns `false` from inside the loop. -/
def AddNewServiceAccount.found (name : String) : List ServiceAccount → Bool
  | [] => false
  | sa :: rest =>
    if strings.TrimSpace sa.Name = strings.TrimSpace name then true
    else AddNewServiceAccount.found name rest

/-- AddNewServiceAccount adds a new service account to the existing slice, but
only if the new one is unique.  Returns whether one was added, and the slice
after the call.  `now` is the value of `time.Now()`. -/
def AddNewServiceAccount (name token discoveryMethod : String) (now : Nat)
    (serviceAccountList : List ServiceAccount) : Bool × List ServiceAccount :=
  if AddNewServiceAccount.found name serviceAccountList then
    (false, serviceAccountList)
  else
    (true, serviceAccountList ++
      [{ Name := name, Token := token, DiscoveryTime := now,
         DiscoveryMethod := discoveryMethod }])

/-- MakeClientCertificateKeyPair is the constructor of a key pair. -/
def MakeClientCertificateKeyPair (name clientCertificateData clientKeyData APIServer
    CACert : String) : ClientCertificateKeyPair :=
  { Name := name, ClientKeyData := clientKeyData,
    ClientCertificateData := clientCertificateData, APIServer := APIServer,
    CACert := CACert }

/-- The arguments of one `AddNewServiceAccount` call. -/
structure AddCall where
  name : String
  token : String
  discoveryMethod : String
  now : Nat
  deriving DecidableEq, Repr

/-- The registry after a sequence of `AddNewServiceAccount` calls, made one
after the other on the registry `l`. -/
def runAdds (l : List ServiceAccount) (calls : List AddCall) : List ServiceAccount :=
  calls.foldl (fun acc c => (AddNewServiceAccount c.name c.token c.discoveryMethod c.now acc).2) l

/-- The registry invariant: no two identities share the same trimmed name. -/
def NoSharedTrimmedName (l : List ServiceAccount) : Prop :=
  l.Pairwise (fun a b => strings.TrimSpace a.Name ≠ strings.TrimSpace b.Name)

/-! ## Connection binder -/

/-- The source's `assignServiceAccountToConnection`: sets the token name and
value from the account and zeroes the client certificate, key and certificate
name. -/
def assignServiceAccountToConnection {ρ : Type} (account : ServiceAccount)
    (info : ServerInfo ρ) : ServerInfo ρ :=
  let info := { info with TokenName := account.Name }
  let info := { info with Token := account.Token }
  -- Zero out any client certificate + key, so it's clear what to authenticate with.
  let info := { info with ClientCertData := "" }
  let info := { info with ClientKeyData := "" }
  let info := { info with ClientCertName := "" }
  info

/-- What the file system answers during one certificate bind: `createTemp` is
the random part `os.CreateTemp` puts in place of the `*` of the pattern
(`none` when the file cannot be created), `writeOk` tells whether
`file.WriteString` succeeds. -/
structure TempFile where
  createTemp : Option String
  writeOk : Bool
  deriving DecidableEq, Repr

/-- The name `os.CreateTemp("/tmp", "*-ca.crt")` gives the file: the directory,
then the pattern with its `*` replaced by the random part. -/
def tmpFileName (rnd : String) : String :=
  "/tmp/" ++ rnd ++ "-ca.crt"

/-- The source's `assignAuthenticationCertificateAndKeyToConnection`.  `none` is
the `log.Fatal` exit taken when the temporary file cannot be created (the second
`if err != nil` of the source, behind it, is never reached); when the write
fails the function returns early and the context is as it was. -/
def assignAuthenticationCertificateAndKeyToConnection {ρ : Type}
    (keypair : ClientCertificateKeyPair) (info : ServerInfo ρ) (fs : TempFile) :
    Option (ServerInfo ρ) :=
  match fs.createTemp with
  | none => none
  | some rnd =>
    let CAPath := tmpFileName rnd
    if !fs.writeOk then
      some info
    else
      let info := { info with CAPath := CAPath }
      let info := { info with ClientCertData := keypair.ClientCertificateData }
      let info := { info with ClientKeyData := keypair.ClientKeyData }
      let info := { info with ClientCertName := keypair.Name }
      let info := { info with APIServer := keypair.APIServer }
      let info := { info with Namespace := "default" }
      -- Zero out any service account token, so it's clear what to authenticate with.
      let info := { info with TokenName := "" }
      let info := { info with Token := "" }
      some info

/-- One call of the binder: a token bind, or a certificate bind together with
what the file system answers during it. -/
inductive BindCall where
  | token (account : ServiceAccount)
  | certificate (keypair : ClientCertificateKeyPair) (fs : TempFile)

/-- The context after one bind call; `none` when the process exits. -/
def BindCall.apply {ρ : Type} (info : ServerInfo ρ) : BindCall → Option (ServerInfo ρ)
  | .token account => some (assignServiceAccountToConnection account info)
  | .certificate keypair fs => assignAuthenticationCertificateAndKeyToConnection keypair info fs

/-- A bind call is successful when it binds: a token bind always, a certificate
bind when its temporary file is created and written. -/
def BindCall.successful : BindCall → Prop
  | .token _ => True
  | .certificate _ fs => fs.createTemp.isSome = true ∧ fs.writeOk = true

/-- The identity of a bind call has non-empty identifying fields: name and token
of a service account; name, certificate and key of a key pair. -/
def BindCall.identityNonEmpty : BindCall → Prop
  | .token account => account.Name ≠ "" ∧ account.Token ≠ ""
  | .certificate keypair _ =>
    keypair.Name ≠ "" ∧ keypair.ClientCertificateData ≠ "" ∧ keypair.ClientKeyData ≠ ""

/-- The context after a sequence of bind calls, made one after the other. -/
def runBinds {ρ : Type} (info : ServerInfo ρ) : List BindCall → Option (ServerInfo ρ)
  | [] => some info
  | c :: cs =>
    match c.apply info with
    | some info1 => runBinds info1 cs
    | none => none

/-- The exclusivity of the two credential kinds with the fields of the data
model: token name/value on one side; client cert name/value, client key value,
CA material path and API server on the other.  One kind has a non-empty field
and every field of the other kind is empty. -/
def ExactlyOneKind {ρ : Type} (info : ServerInfo ρ) : Prop :=
  ((info.TokenName ≠ "" ∨ info.Token ≠ "") ∧
      info.ClientCertName = "" ∧ info.ClientCertData = "" ∧ info.ClientKeyData = "" ∧
      info.CAPath = "" ∧ info.APIServer = "") ∨
    ((info.ClientCertName ≠ "" ∨ info.ClientCertData ≠ "" ∨ info.ClientKeyData ≠ "" ∨
        info.CAPath ≠ "" ∨ info.APIServer ≠ "") ∧
      info.TokenName = "" ∧ info.Token = "")

/-- The exclusivity the two binds keep: either the token name and value are
non-empty and the client certificate, key and certificate name are empty, or
the client certificate, key and certificate name are non-empty and the token
name and value are empty. -/
def ExclusiveCredential {ρ : Type} (info : ServerInfo ρ) : Prop :=
  (info.TokenName ≠ "" ∧ info.Token ≠ "" ∧
      info.ClientCertName = "" ∧ info.ClientCertData = "" ∧ info.ClientKeyData = "") ∨
    (info.ClientCertName ≠ "" ∧ info.ClientCertData ≠ "" ∧ info.ClientKeyData ≠ "" ∧
      info.TokenName = "" ∧ info.Token = "")

/-! ## `strings.Split` on a one-character separator -/

/-- The pieces of `s` between the occurrences of `sep`, on lists of characters. -/
def strings.splitChars (sep : Char) : List Char → List (List Char)
  | [] => [[]]
  | c :: cs =>
    if c = sep then [] :: strings.splitChars sep cs
    else
      match strings.splitChars sep cs with
      | [] => [[c]]
      | p :: ps => (c :: p) :: ps

/-- Go's `strings.Split(s, sep)` for a separator of one character: all the
substrings of `s` between the separators; an `s` without separator (the empty
string too) gives the one-element slice holding `s`. -/
def strings.Split (s : String) (sep : Char) : List String :=
  (strings.splitChars sep s.data).map String.mk

/-! ## `encoding/base64` -/

/-- An encoding of `encoding/base64`: its 64-character alphabet and its padding
character (`none` is `base64.NoPadding`).  Both encodings used here are
non-strict. -/
structure base64.Encoding where
  encode : List Char
  padChar : Option Char

/-- The alphabet of `base64.URLEncoding`. -/
def base64.encodeURL : List Char :=
  "ABCDEFGHIJKLMNOPQRSTUVWXYZabcdefghijklmnopqrstuvwxyz0123456789-_".data

/-- The alphabet of `base64.StdEncoding`. -/
def base64.encodeStd : List Char :=
  "ABCDEFGHIJKLMNOPQRSTUVWXYZabcdefghijklmnopqrstuvwxyz0123456789+/".data

/-- Go's `base64.RawURLEncoding`: the URL alphabet, no padding. -/
def base64.RawURLEncoding : base64.Encoding :=
  { encode := base64.encodeURL, padChar := none }

/-- Go's `base64.StdEncoding`: the standard alphabet, padded with `=`. -/
def base64.StdEncoding : base64.Encoding :=
  { encode := base64.encodeStd, padChar := some '=' }

/-- The `decodeMap` of an encoding: the position of a character in the alphabet,
`none` (0xff in Go) for a character outside it. -/
def base64.Encoding.decodeMap (enc : base64.Encoding) (c : Char) : Option Nat :=
  let i := enc.encode.indexOf c
  if i < 64 then some i else none

/-- The character of the 6-bit value `v`. -/
def base64.Encoding.encodeChar (enc : base64.Encoding) (v : Nat) : Char :=
  enc.encode.getD v 'A'

/-- The bytes of one quantum of four 6-bit values:
`val := v0<<18 | v1<<12 | v2<<6 | v3`, then `byte(val>>16), byte(val>>8), byte(val)`. -/
def base64.quantum (v0 v1 v2 v3 : Nat) : Nat × Nat × Nat :=
  let val := v0 * 2 ^ 18 + v1 * 2 ^ 12 + v2 * 2 ^ 6 + v3
  (val / 2 ^ 16 % 256, val / 2 ^ 8 % 256, val % 256)

/-- The decoding loop of `Encoding.Decode` on an input without `\r` and `\n`:
four characters of the alphabet give three bytes; at the end of the input an
unpadded encoding accepts two or three characters (one or two bytes) and a
padded one accepts `xx==` or `xxx=`; everything else is a
`CorruptInputError`. -/
def base64.Encoding.decodeChunks (enc : base64.Encoding) : List Char → Option (List Nat)
  | [] => some []
  | [_] => none
  | [a, b] =>
    match enc.padChar, enc.decodeMap a, enc.decodeMap b with
    | none, some v0, some v1 => some [(base64.quantum v0 v1 0 0).1]
    | _, _, _ => none
  | [a, b, c] =>
    match enc.padChar, enc.decodeMap a, enc.decodeMap b, enc.decodeMap c with
    | none, some v0, some v1, some v2 =>
      some [(base64.quantum v0 v1 v2 0).1, (base64.quantum v0 v1 v2 0).2.1]
    | _, _, _, _ => none
  | a :: b :: c :: d :: rest =>
    match enc.decodeMap a, enc.decodeMap b, enc.decodeMap c, enc.decodeMap d with
    | some v0, some v1, some v2, some v3 =>
      match enc.decodeChunks rest with
      | some out =>
        some ((base64.quantum v0 v1 v2 v3).1 :: (base64.quantum v0 v1 v2 v3).2.1 ::
          (base64.quantum v0 v1 v2 v3).2.2 :: out)
      | none => none
    | some v0, some v1, some v2, none =>
      if some d = enc.padChar ∧ rest = [] then
        some [(base64.quantum v0 v1 v2 0).1, (base64.quantum v0 v1 v2 0).2.1]
      else none
    | some v0, some v1, none, none =>
      if some c = enc.padChar ∧ some d = enc.padChar ∧ rest = [] then
        some [(base64.quantum v0 v1 0 0).1]
      else none
    | _, _, _, _ => none

/-- Go's `Encoding.DecodeString`: `\r` and `\n` are ignored wherever they
stand, the rest is decoded; `none` is the `CorruptInputError`. -/
def base64.Encoding.DecodeString (enc : base64.Encoding) (s : String) : Option (List Nat) :=
  enc.decodeChunks (s.data.filter (fun c => !(c = '\n' || c = '\r')))

/-- The characters of `Encoding.Encode`: three bytes give four characters, a
rest of one or two bytes gives two or three characters, followed by the padding
of a padded encoding. -/
def base64.Encoding.encodeChunks (enc : base64.Encoding) : List Nat → List Char
  | [] => []
  | [a] =>
    [enc.encodeChar (a / 4), enc.encodeChar (a % 4 * 16)] ++
      (match enc.padChar with | some p => [p, p] | none => [])
  | [a, b] =>
    [enc.encodeChar (a / 4), enc.encodeChar (a % 4 * 16 + b / 16),
      enc.encodeChar (b % 16 * 4)] ++
      (match enc.padChar with | some p => [p] | none => [])
  | a :: b :: c :: rest =>
    enc.encodeChar (a / 4) :: enc.encodeChar (a % 4 * 16 + b / 16) ::
      enc.encodeChar (b % 16 * 4 + c / 64) :: enc.encodeChar (c % 64) ::
      enc.encodeChunks rest

/-- Go's `Encoding.EncodeToString`. -/
def base64.Encoding.EncodeToString (enc : base64.Encoding) (src : List Nat) : String :=
  String.mk (enc.encodeChunks src)

/-! ## `unicode/utf8` -/

/-- The runes of a byte string, as Go's `utf8.DecodeRune` reads them one after
the other: a well-formed encoding gives its code point, any other byte gives
U+FFFD and is skipped alone. -/
def utf8.runes : List Nat → List Char
  | [] => []
  | b0 :: rest =>
    -- the `(RuneError, 1)` answer: one byte is skipped
    let invalid := Char.ofNat 0xFFFD :: utf8.runes rest
    if b0 < 0x80 then Char.ofNat b0 :: utf8.runes rest
    else if 0xC2 ≤ b0 ∧ b0 ≤ 0xDF then
      match rest with
      | b1 :: rest1 =>
        if 0x80 ≤ b1 ∧ b1 ≤ 0xBF then
          Char.ofNat (b0 % 32 * 64 + b1 % 64) :: utf8.runes rest1
        else invalid
      | [] => invalid
    else if 0xE0 ≤ b0 ∧ b0 ≤ 0xEF then
      match rest with
      | b1 :: b2 :: rest2 =>
        if (if b0 = 0xE0 then 0xA0 else 0x80) ≤ b1 ∧ b1 ≤ (if b0 = 0xED then 0x9F else 0xBF)
            ∧ 0x80 ≤ b2 ∧ b2 ≤ 0xBF then
          Char.ofNat (b0 % 16 * 4096 + b1 % 64 * 64 + b2 % 64) :: utf8.runes rest2
        else invalid
      | _ => invalid
    else if 0xF0 ≤ b0 ∧ b0 ≤ 0xF4 then
      match rest with
      | b1 :: b2 :: b3 :: rest3 =>
        if (if b0 = 0xF0 then 0x90 else 0x80) ≤ b1 ∧ b1 ≤ (if b0 = 0xF4 then 0x8F else 0xBF)
            ∧ 0x80 ≤ b2 ∧ b2 ≤ 0xBF ∧ 0x80 ≤ b3 ∧ b3 ≤ 0xBF then
          Char.ofNat (b0 % 8 * 262144 + b1 % 64 * 4096 + b2 % 64 * 64 + b3 % 64) ::
            utf8.runes rest3
        else invalid
      | _ => invalid
    else invalid

/-! ## `encoding/json`

`json.Unmarshal(data, &claims)` with `claims` a nil `map[string]interface{}`.
Go first checks the whole input against the JSON grammar and then decodes it.
The model reads the runes of the input (outside a string literal a byte above
0x7F is a syntax error either way, inside one Go decodes it with
`utf8.DecodeRune`), cuts them into tokens with a state machine and builds the
value with a stack of open containers. -/

/-- A JSON number before its conversion to `float64`: sign, decimal digits and
power of ten, so that the value is `± mant * 10 ^ exp10`. -/
structure json.Number where
  neg : Bool
  mant : Nat
  exp10 : Int
  deriving DecidableEq, Repr

/-- What `Unmarshal` stores in an `interface{}`: `nil`, `bool`, `float64`,
`string`, `[]interface{}` or `map[string]interface{}`.  An object keeps its
members in the order of the input, see `json.mapIndex`. -/
inductive json.Value where
  | null
  | bool (b : Bool)
  | number (n : json.Number)
  | string (s : String)
  | array (xs : List json.Value)
  | object (m : List (String × json.Value))

/-- The error kinds of `json.Unmarshal`: a `*json.SyntaxError`, or a
`*json.UnmarshalTypeError` (a JSON value that does not fit the Go type). -/
inductive json.Error where
  | syntaxError
  | unmarshalTypeError
  deriving DecidableEq, Repr

/-- Indexing a Go map built from the members of a JSON object: a key stored
twice holds the value stored last; a missing key gives `none` (the nil
interface). -/
def json.mapIndex (m : List (String × json.Value)) (key : String) : Option json.Value :=
  m.foldl (fun acc kv => if kv.1 = key then some kv.2 else acc) none

/-- The tokens of a JSON text. -/
inductive json.Token where
  | beginObject
  | endObject
  | beginArray
  | endArray
  | colon
  | comma
  | string (s : String)
  | number (n : json.Number)
  | litTrue
  | litFalse
  | litNull

/-- Whether a character is an ASCII decimal digit. -/
def json.isDigit (c : Char) : Bool :=
  48 ≤ c.toNat && c.toNat ≤ 57

/-- The value of a run of decimal digits. -/
def json.digitsValue (ds : List Char) : Nat :=
  ds.foldl (fun acc c => acc * 10 + (c.toNat - 48)) 0

/-- The exponent part of a number literal, after `digits` were read of which the
last `fracLen` stand behind the decimal point. -/
def json.parseExponent (neg : Bool) (digits : List Char) (fracLen : Nat) :
    List Char → Option json.Number
  | [] => some { neg := neg, mant := json.digitsValue digits, exp10 := - (fracLen : Int) }
  | e :: r =>
    if e = 'e' ∨ e = 'E' then
      let signed : Bool × List Char :=
        match r with
        | '+' :: r1 => (false, r1)
        | '-' :: r1 => (true, r1)
        | _ => (false, r)
      if signed.2 = [] ∨ !(signed.2.all json.isDigit) then none
      else
        let ev : Int := json.digitsValue signed.2
        some { neg := neg, mant := json.digitsValue digits,
               exp10 := (if signed.1 then - ev else ev) - (fracLen : Int) }
    else none

/-- A number literal of the JSON grammar:
`-? (0 | [1-9][0-9]*) (. [0-9]+)? ([eE] [+-]? [0-9]+)?`. -/
def json.parseNumber (cs : List Char) : Option json.Number :=
  let signed : Bool × List Char :=
    match cs with
    | '-' :: r => (true, r)
    | _ => (false, cs)
  let intPart := signed.2.takeWhile json.isDigit
  let rest := signed.2.dropWhile json.isDigit
  if intPart = [] then none
  else if 1 < intPart.length ∧ intPart.head? = some '0' then none
  else
    match rest with
    | '.' :: r =>
      let frac := r.takeWhile json.isDigit
      if frac = [] then none
      else json.parseExponent signed.1 (intPart ++ frac) frac.length (r.dropWhile json.isDigit)
    | _ => json.parseExponent signed.1 intPart 0 rest

/-- The least magnitude that rounds to infinity as a `float64`: half an ulp above
the largest finite value, that is `2^1024 - 2^970`, written as a literal. -/
def json.float64Overflow : Nat :=
  0xFFFFFFFFFFFFFC00000000000000000000000000000000000000000000000000000000000000000000000000000000000000000000000000000000000000000000000000000000000000000000000000000000000000000000000000000000000000000000000000000000000000000000000000000000000000000000000000

/-- Whether `strconv.ParseFloat(s, 64)` fails with a range error on the number:
its magnitude rounds to infinity. -/
def json.Number.overflows (n : json.Number) : Bool :=
  if 0 ≤ n.exp10 then
    decide (json.float64Overflow ≤ n.mant * 10 ^ n.exp10.toNat)
  else
    decide (json.float64Overflow * 10 ^ (- n.exp10).toNat ≤ n.mant)

/-- The value of a hexadecimal digit. -/
def json.hexDigit (c : Char) : Option Nat :=
  let n := c.toNat
  if 48 ≤ n ∧ n ≤ 57 then some (n - 48)
  else if 97 ≤ n ∧ n ≤ 102 then some (n - 87)
  else if 65 ≤ n ∧ n ≤ 70 then some (n - 55)
  else none

/-- Go's `getu4`, on the four characters after `\u`. -/
def json.hex4 (h1 h2 h3 h4 : Char) : Option Nat :=
  match json.hexDigit h1, json.hexDigit h2, json.hexDigit h3, json.hexDigit h4 with
  | some a, some b, some c, some d => some (a * 4096 + b * 256 + c * 16 + d)
  | _, _, _, _ => none

/-- The character of a one-letter escape. -/
def json.simpleEscape (e : Char) : Option Char :=
  if e = '"' then some '"'
  else if e = '\\' then some '\\'
  else if e = '/' then some '/'
  else if e = 'b' then some (Char.ofNat 8)
  else if e = 'f' then some (Char.ofNat 12)
  else if e = 'n' then some (Char.ofNat 10)
  else if e = 'r' then some (Char.ofNat 13)
  else if e = 't' then some (Char.ofNat 9)
  else none

/-- Go's `unquote` on the inside of a string literal: escapes are replaced; a
`\u` escape of a surrogate needs its second half in a following `\u` escape,
else it becomes U+FFFD. -/
def json.unquote : List Char → Option (List Char)
  | [] => some []
  | c :: rest =>
    if c = '\\' then
      match rest with
      | [] => none
      | e :: rest1 =>
        if e = 'u' then
          match rest1 with
          | h1 :: h2 :: h3 :: h4 :: rest2 =>
            -- an invalid surrogate falls back to the replacement rune
            let replaced := (json.unquote rest2).map (fun t => Char.ofNat 0xFFFD :: t)
            match json.hex4 h1 h2 h3 h4 with
            | none => none
            | some rr =>
              if 0xD800 ≤ rr ∧ rr < 0xE000 then
                match rest2 with
                | b :: u :: g1 :: g2 :: g3 :: g4 :: rest3 =>
                  match (if b = '\\' ∧ u = 'u' then json.hex4 g1 g2 g3 g4 else none) with
                  | some rr1 =>
                    if rr < 0xDC00 ∧ 0xDC00 ≤ rr1 ∧ rr1 < 0xE000 then
                      (json.unquote rest3).map
                        (fun t => Char.ofNat ((rr - 0xD800) * 1024 + (rr1 - 0xDC00) + 0x10000) :: t)
                    else replaced
                  | none => replaced
                | _ => replaced
              else (json.unquote rest2).map (fun t => Char.ofNat rr :: t)
          | _ => none
        else
          match json.simpleEscape e with
          | some ch => (json.unquote rest1).map (fun t => ch :: t)
          | none => none
    else if c = '"' ∨ c.toNat < 0x20 then none
    else (json.unquote rest).map (fun t => c :: t)

/-- The state of the tokenizer: between tokens, inside a string literal (the
characters read so far, last first, and whether the last one was an unescaped
backslash), inside a number or inside one of the words `true`, `false`, `null`. -/
inductive json.LexState where
  | start
  | inString (acc : List Char) (esc : Bool)
  | inNumber (acc : List Char)
  | inWord (acc : List Char)

/-- One character read between tokens: the next state and the token it makes. -/
def json.lexStart (c : Char) : Option (json.LexState × List json.Token) :=
  if c = ' ' ∨ c = '\t' ∨ c = '\r' ∨ c = '\n' then some (.start, [])
  else if c = '{' then some (.start, [.beginObject])
  else if c = '}' then some (.start, [.endObject])
  else if c = '[' then some (.start, [.beginArray])
  else if c = ']' then some (.start, [.endArray])
  else if c = ':' then some (.start, [.colon])
  else if c = ',' then some (.start, [.comma])
  else if c = '"' then some (.inString [] false, [])
  else if c = '-' ∨ json.isDigit c then some (.inNumber [c], [])
  else if 97 ≤ c.toNat ∧ c.toNat ≤ 122 then some (.inWord [c], [])
  else none

/-- The token of a word. -/
def json.wordToken (cs : List Char) : Option json.Token :=
  if cs = ['t', 'r', 'u', 'e'] then some .litTrue
  else if cs = ['f', 'a', 'l', 's', 'e'] then some .litFalse
  else if cs = ['n', 'u', 'l', 'l'] then some .litNull
  else none

/-- Whether a character can continue a number literal. -/
def json.isNumberChar (c : Char) : Bool :=
  json.isDigit c || c = '+' || c = '-' || c = '.' || c = 'e' || c = 'E'

/-- The tokenizer: `none` is a syntax error. -/
def json.lex : json.LexState → List Char → Option (List json.Token)
  | .start, [] => some []
  | .inString _ _, [] => none
  | .inNumber acc, [] => (json.parseNumber acc.reverse).map (fun n => [.number n])
  | .inWord acc, [] => (json.wordToken acc.reverse).map (fun t => [t])
  | .start, c :: cs =>
    match json.lexStart c with
    | some (st, toks) => (json.lex st cs).map (fun r => toks ++ r)
    | none => none
  | .inString acc esc, c :: cs =>
    if esc then json.lex (.inString (c :: acc) false) cs
    else if c = '"' then
      match json.unquote acc.reverse with
      | some str => (json.lex .start cs).map (fun r => .string (String.mk str) :: r)
      | none => none
    else if c = '\\' then json.lex (.inString (c :: acc) true) cs
    else if c.toNat < 0x20 then none
    else json.lex (.inString (c :: acc) false) cs
  | .inNumber acc, c :: cs =>
    if json.isNumberChar c then json.lex (.inNumber (c :: acc)) cs
    else
      match json.parseNumber acc.reverse, json.lexStart c with
      | some n, some (st, toks) => (json.lex st cs).map (fun r => .number n :: (toks ++ r))
      | _, _ => none
  | .inWord acc, c :: cs =>
    if 97 ≤ c.toNat ∧ c.toNat ≤ 122 then json.lex (.inWord (c :: acc)) cs
    else
      match json.wordToken acc.reverse, json.lexStart c with
      | some t, some (st, toks) => (json.lex st cs).map (fun r => t :: (toks ++ r))
      | _, _ => none

/-- An open container: an array with the elements read so far, or an object
with its members read so far and the key waiting for its value. -/
inductive json.Frame where
  | array (items : List json.Value)
  | object (members : List (String × json.Value)) (key : Option String)

/-- What the grammar allows next. -/
inductive json.Expect where
  | value
  | valueOrEnd
  | keyOrEnd
  | key
  | colon
  | commaOrEnd
  | done

/-- The state of the value builder: the open containers, innermost first, what
may come next, and the finished top-level value. -/
structure json.Builder where
  stack : List json.Frame
  expect : json.Expect
  result : Option json.Value

/-- Go's `maxNestingDepth`. -/
def json.maxNestingDepth : Nat := 10000

/-- A value is complete: it is the top-level value, or it goes into the
innermost open container. -/
def json.complete (v : json.Value) : List json.Frame → Option json.Builder
  | [] => some { stack := [], expect := .done, result := some v }
  | .array items :: rest =>
    some { stack := .array (items ++ [v]) :: rest, expect := .commaOrEnd, result := none }
  | .object members (some k) :: rest =>
    some { stack := .object (members ++ [(k, v)]) none :: rest, expect := .commaOrEnd,
           result := none }
  | .object _ none :: _ => none

/-- A container is opened, unless the nesting is too deep. -/
def json.push (f : json.Frame) (e : json.Expect) (stack : List json.Frame) :
    Option json.Builder :=
  if stack.length + 1 ≤ json.maxNestingDepth then
    some { stack := f :: stack, expect := e, result := none }
  else none

/-- A token that starts a value. -/
def json.beginValue (stack : List json.Frame) : json.Token → Option json.Builder
  | .string s => json.complete (.string s) stack
  | .number n => json.complete (.number n) stack
  | .litTrue => json.complete (.bool true) stack
  | .litFalse => json.complete (.bool false) stack
  | .litNull => json.complete .null stack
  | .beginObject => json.push (.object [] none) .keyOrEnd stack
  | .beginArray => json.push (.array []) .valueOrEnd stack
  | _ => none

/-- One token read by the value builder: `none` is a syntax error. -/
def json.step (b : json.Builder) (t : json.Token) : Option json.Builder :=
  match b.expect, t, b.stack with
  | .valueOrEnd, .endArray, .array items :: rest => json.complete (.array items) rest
  | .valueOrEnd, t, stack => json.beginValue stack t
  | .value, t, stack => json.beginValue stack t
  | .keyOrEnd, .endObject, .object members none :: rest => json.complete (.object members) rest
  | .keyOrEnd, .string k, .object members none :: rest =>
    some { stack := .object members (some k) :: rest, expect := .colon, result := none }
  | .key, .string k, .object members none :: rest =>
    some { stack := .object members (some k) :: rest, expect := .colon, result := none }
  | .colon, .colon, stack => some { stack := stack, expect := .value, result := none }
  | .commaOrEnd, .comma, .array items :: rest =>
    some { stack := .array items :: rest, expect := .value, result := none }
  | .commaOrEnd, .comma, .object members none :: rest =>
    some { stack := .object members none :: rest, expect := .key, result := none }
  | .commaOrEnd, .endArray, .array items :: rest => json.complete (.array items) rest
  | .commaOrEnd, .endObject, .object members none :: rest =>
    json.complete (.object members) rest
  | _, _, _ => none

/-- The value of a token sequence: every token is read, and at the end the
top-level value must be complete. -/
def json.build : json.Builder → List json.Token → Option json.Value
  | b, [] =>
    match b.expect with
    | .done => b.result
    | _ => none
  | b, t :: ts =>
    match json.step b t with
    | some b1 => json.build b1 ts
    | none => none

/-- Whether a token is a number that does not fit a `float64`. -/
def json.Token.overflows : json.Token → Bool
  | .number n => n.overflows
  | _ => false

/-- Go's `json.Unmarshal(data, &claims)` for `var claims map[string]interface{}`:
a text outside the JSON grammar is a syntax error; a number that does not fit a
`float64`, or a top-level value other than an object or `null`, is an
`UnmarshalTypeError`; `null` leaves the map nil (no key); an object gives its
members. -/
def json.Unmarshal (data : List Nat) : Except json.Error (List (String × json.Value)) :=
  match json.lex .start (utf8.runes data) with
  | none => .error .syntaxError
  | some toks =>
    match json.build { stack := [], expect := .value, result := none } toks with
    | none => .error .syntaxError
    | some v =>
      if toks.any json.Token.overflows then .error .unmarshalTypeError
      else
        match v with
        | .object m => .ok m
        | .null => .ok []
        | _ => .error .unmarshalTypeError

/-! ## Token claims decoder -/

/-- The errors `parseServiceAccountJWT_return_sub` builds with `errors.New`:
`"Invalid token: " + tokenString`, `"Error decoding payload: ..."`,
`"Error parsing JSON: ..."` and the fixed text saying that the `sub` field was
not found or is not a string. -/
inductive ParseError where
  | invalidToken (tokenString : String)
  | decodingPayload
  | parsingJSON (err : json.Error)
  | subNotFound
  deriving DecidableEq, Repr

/-- The source's `parseServiceAccountJWT_return_sub`: the triple
`(int64, string, error)` it returns, the error being `none` for `nil`. -/
def parseServiceAccountJWT_return_sub (tokenString : String) :
    Int × String × Option ParseError :=
  -- Split the JWT into its three components
  let parts := strings.Split tokenString '.'
  if parts.length ≠ 3 then
    (0, "", some (.invalidToken tokenString))
  else
    -- Decode the payload (second part)
    match base64.RawURLEncoding.DecodeString (parts.getD 1 "") with
    | none => (0, "", some .decodingPayload)
    | some payload =>
      -- Parse the JSON payload
      match json.Unmarshal payload with
      | .error err => (0, "", some (.parsingJSON err))
      | .ok claims =>
        -- Extract the "sub" field
        match json.mapIndex claims "sub" with
        | some (.string sub) => (0, sub, none)
        | _ => (0, "", some .subNotFound)

/-! ## `int64(float64)` -/

/-- The number of binary digits of `n`, with `fuel` steps at most. -/
def float64.bitLenAux : Nat → Nat → Nat
  | 0, _ => 0
  | fuel + 1, n => if n = 0 then 0 else float64.bitLenAux fuel (n / 2) + 1

/-- The number of binary digits of `n`: `0` for `0`, else `⌊log₂ n⌋ + 1`. -/
def float64.bitLen (n : Nat) : Nat :=
  float64.bitLenAux n n

/-- The integer `⌊log₂ (num / den)⌋` of a positive fraction. -/
def float64.floorLog2 (num den : Nat) : Int :=
  let c : Int := (float64.bitLen num : Int) - (float64.bitLen den : Int)
  if (if 0 ≤ c then decide (den * 2 ^ c.toNat ≤ num) else decide (den ≤ num * 2 ^ (- c).toNat))
  then c else c - 1

/-- The integer nearest to `a / b`, a tie going to the even one. -/
def float64.roundHalfEven (a b : Nat) : Nat :=
  let q := a / b
  let r := a % b
  if 2 * r < b then q else if b < 2 * r then q + 1 else if q % 2 = 0 then q else q + 1

/-- The `float64` nearest to the fraction `num / den` (round to nearest, ties to
even, 53 bits of precision, least exponent -1074), as a pair `(m, s)` of value
`m * 2 ^ s`. -/
def float64.nearest (num den : Nat) : Nat × Int :=
  if num = 0 then (0, 0)
  else
    let s : Int := max (float64.floorLog2 num den - 52) (-1074)
    if 0 ≤ s then (float64.roundHalfEven num (den * 2 ^ s.toNat), s)
    else (float64.roundHalfEven (num * 2 ^ (- s).toNat) den, s)

/-- Go's `int64(f)` for the `float64` that `json.Unmarshal` stores for the number:
the fraction is discarded (truncation towards zero).  A value outside the range of
`int64` has an implementation-dependent result in Go; the model gives the answer of
amd64, `-2^63`. -/
def json.Number.toInt64 (n : json.Number) : Int :=
  let frac : Nat × Nat :=
    if 0 ≤ n.exp10 then (n.mant * 10 ^ n.exp10.toNat, 1)
    else (n.mant, 10 ^ (- n.exp10).toNat)
  let f := float64.nearest frac.1 frac.2
  let mag : Nat := if 0 ≤ f.2 then f.1 * 2 ^ f.2.toNat else f.1 / 2 ^ (- f.2).toNat
  let v : Int := if n.neg then - (mag : Int) else (mag : Int)
  if - (2 : Int) ^ 63 ≤ v ∧ v < (2 : Int) ^ 63 then v else - (2 : Int) ^ 63

/-! ## Full-claims decoder -/

/-- How a Go function ends: it returns, or it panics (a failed type assertion, a
nil pointer dereference). -/
inductive Outcome (α : Type) where
  | returned (a : α)
  | panic
  deriving DecidableEq, Repr

/-- What the library go-jose answers to
`token, err := jwt.ParseSigned(tokenString)` followed by
`err = token.UnsafeClaimsWithoutVerification(&claims)`: either `ParseSigned`
fails and `token` is nil, or the token is parsed and the second call leaves
`claims` holding `m` (no key when it is still nil) and returns an error or not. -/
inductive jwt.Answer where
  | parseError
  | claims (m : List (String × json.Value)) (failed : Bool)

/-- The source's `parseServiceAccountJWT`.  The library go-jose is not part of
the repository: its answer on a token string is the input `jose` of the model.
The error of `ParseSigned` is overwritten, and a nil `token` makes the next call
dereference a nil pointer; the error of `UnsafeClaimsWithoutVerification` is
only printed; each single-value type assertion panics when the value is absent
or of another type. -/
def parseServiceAccountJWT (jose : String → jwt.Answer) (tokenString : String) :
    Outcome (Int × String) :=
  match jose tokenString with
  | .parseError => .panic
  | .claims claims _ =>
    match json.mapIndex claims "exp" with
    | some (.number exp) =>
      let expiration := exp.toInt64
      match json.mapIndex claims "kubernetes.io" with
      | some (.object kubernetesIOstruct) =>
        match json.mapIndex kubernetesIOstruct "namespace" with
        | some (.string ns) =>
          match json.mapIndex kubernetesIOstruct "serviceaccount" with
          | some (.object saStruct) =>
            match json.mapIndex saStruct "name" with
            | some (.string name) => .returned (expiration, ns ++ ":" ++ name)
            | _ => .panic
          | _ => .panic
        | _ => .panic
      | _ => .panic
    | _ => .panic

/-- The claims of a platform service-account token, as `parseServiceAccountJWT`
reads them: a number under "exp", an object under "kubernetes.io" holding a
string under "namespace" and an object under "serviceaccount", which holds a
string under "name". -/
def jwt.HasPlatformClaims (claims : List (String × json.Value)) : Prop :=
  ∃ (E : json.Number) (k sa : List (String × json.Value)) (N M : String),
    json.mapIndex claims "exp" = some (.number E) ∧
    json.mapIndex claims "kubernetes.io" = some (.object k) ∧
    json.mapIndex k "namespace" = some (.string N) ∧
    json.mapIndex k "serviceaccount" = some (.object sa) ∧
    json.mapIndex sa "name" = some (.string M)

/-! ## Listing and selecting identities -/

/-- The text of one entry of the listing, as the two `fmt.Sprintf` calls of
`listServiceAccounts` build it: `"> [%d] %s\n"` for the identity whose name is the
active token name, `"  [%d] %s\n"` for another one. -/
def listServiceAccounts.entry (tokenName : String) (i : Nat) (account : ServiceAccount) :
    String :=
  if account.Name = tokenName then "> [" ++ Nat.repr i ++ "] " ++ account.Name ++ "\n"
  else "  [" ++ Nat.repr i ++ "] " ++ account.Name ++ "\n"

/-- The `for i, account := range serviceAccounts` loop of `listServiceAccounts`:
`i` is the index of the next identity and `output` the text built so far. -/
def listServiceAccounts.loop (tokenName : String) :
    Nat → List ServiceAccount → String → String
  | _, [], output => output
  | i, account :: rest, output =>
    listServiceAccounts.loop tokenName (i + 1) rest
      (output ++ listServiceAccounts.entry tokenName i account)

/-- The source's `listServiceAccounts`: the text it hands to `outputToUser`. -/
def listServiceAccounts {ρ : Type} (serviceAccounts : List ServiceAccount)
    (connectionString : ServerInfo ρ) : String :=
  listServiceAccounts.loop connectionString.TokenName 0 serviceAccounts ""

/-- The source's `switchServiceAccounts`: the connection context after the call.
`input` is what `fmt.Scanln` read and `Sscan input` what `fmt.Sscan(input, &tokNum)`
answers: the integer read, or `none` for an error. -/
def switchServiceAccounts {ρ : Type} (serviceAccounts : List ServiceAccount)
    (connectionString : ServerInfo ρ) (input : String) (Sscan : String → Option Int) :
    ServerInfo ρ :=
  if input = "exit" then connectionString
  else
    match Sscan input with
    | none => connectionString
    | some tokNum =>
      if h : tokNum < 0 ∨ tokNum ≥ serviceAccounts.length then connectionString
      else
        assignServiceAccountToConnection
          (serviceAccounts.get ⟨tokNum.toNat, by omega⟩) connectionString

/-! ## Secret-derived token importer -/

/-- Go's `utf8.AppendRune`: the UTF-8 encoding of a character. -/
def utf8.encodeRune (c : Char) : List Nat :=
  let n := c.toNat
  if n < 0x80 then [n]
  else if n < 0x800 then [0xC0 + n / 64, 0x80 + n % 64]
  else if n < 0x10000 then [0xE0 + n / 4096, 0x80 + n / 64 % 64, 0x80 + n % 64]
  else [0xF0 + n / 262144, 0x80 + n / 4096 % 64, 0x80 + n / 64 % 64, 0x80 + n % 64]

/-- The bytes of a Go string: the UTF-8 encoding of its text. -/
def utf8.bytes : List Char → List Nat
  | [] => []
  | c :: cs => utf8.encodeRune c ++ utf8.bytes cs

/-- Go's conversion `string(b)` of a byte slice.  Strings of the model hold text,
so bytes that are valid UTF-8 give the text they encode (the Go string with
exactly these bytes); the model has no string for other bytes and shows an
invalid byte as U+FFFD. -/
def stringOfBytes (b : List Nat) : String :=
  String.mk (utf8.runes b)

/-- The second half of the source's `getServiceAccountTokenFromSecret`, from
`json.Unmarshal(secretJSON, &secretData)` on: the import of the secret's token
into the registry.  The three single-value type assertions panic on a value
that is absent or of another type. -/
def getServiceAccountTokenFromSecret.importSecret (secretName : String)
    (secretJSON : List Nat) (now : Nat) (serviceAccounts : List ServiceAccount) :
    Outcome (List ServiceAccount) :=
  match json.Unmarshal secretJSON with
  | .error _ => .returned serviceAccounts
  | .ok secretData =>
    match json.mapIndex secretData "type" with
    | some (.string secretType) =>
      if secretType ≠ "kubernetes.io/service-account-token" then .returned serviceAccounts
      else
        match json.mapIndex secretData "data" with
        | some (.object data) =>
          match json.mapIndex data "token" with
          | some (.string opaqueToken) =>
            match base64.StdEncoding.DecodeString opaqueToken with
            | none => .returned serviceAccounts
            | some token =>
              .returned (AddNewServiceAccount secretName (stringOfBytes token)
                "Cluster Secret" now serviceAccounts).2
          | _ => .panic
        | _ => .panic
    | _ => .panic

/-- The source's `getServiceAccountTokenFromSecret`: the registry after the call.
`scanln` is the secret name `fmt.Scanln` read (`none` for an error) and
`runKubectlSimple secretName` the bytes `kubectl get secret secretName -o json`
gave (`none` for an error); both are outside this file. -/
def getServiceAccountTokenFromSecret (scanln : Option String)
    (runKubectlSimple : String → Option (List Nat)) (now : Nat)
    (serviceAccounts : List ServiceAccount) : Outcome (List ServiceAccount) :=
  match scanln with
  | none => .returned serviceAccounts
  | some secretName =>
    match runKubectlSimple secretName with
    | none => .returned serviceAccounts
    | some secretJSON =>
      getServiceAccountTokenFromSecret.importSecret secretName secretJSON now serviceAccounts

/-! # Theorems -/

/-! ## Identity registry -/

/-- The loop finds a duplicate exactly when some entry has the same trimmed
name. -/
theorem found_eq_true_iff (name : String) (l : List ServiceAccount) :
    AddNewServiceAccount.found name l = true ↔
      ∃ sa ∈ l, strings.TrimSpace sa.Name = strings.TrimSpace name := by
  induction l with
  | nil => simp [AddNewServiceAccount.found]
  | cons sa rest ih =>
    by_cases h : strings.TrimSpace sa.Name = strings.TrimSpace name
    · simp [AddNewServiceAccount.found, h]
    · simp [AddNewServiceAccount.found, h, ih]

/-- C1: a name whose trimmed form equals the trimmed name of an identity already
in the registry is refused: `AddNewServiceAccount` returns `false` and the
registry is the one passed in, whatever the token, discovery method and time. -/
theorem addNewServiceAccount_duplicate (name token discoveryMethod : String) (now : Nat)
    (l : List ServiceAccount)
    (h : ∃ sa ∈ l, strings.TrimSpace sa.Name = strings.TrimSpace name) :
    AddNewServiceAccount name token discoveryMethod now l = (false, l) := by
  have hf : AddNewServiceAccount.found name l = true := (found_eq_true_iff name l).2 h
  simp [AddNewServiceAccount, hf]

/-- C1 at a concrete input: `" web "` is refused by a registry holding `"web"`. -/
theorem addNewServiceAccount_duplicate_witness :
    AddNewServiceAccount " web " "tok2" "user input" 7
        [{ Name := "web", Token := "tok1", DiscoveryTime := 1, DiscoveryMethod := "file on disk" }]
      = (false,
        [{ Name := "web", Token := "tok1", DiscoveryTime := 1, DiscoveryMethod := "file on disk" }]) :=
  addNewServiceAccount_duplicate " web " "tok2" "user input" 7
    [{ Name := "web", Token := "tok1", DiscoveryTime := 1, DiscoveryMethod := "file on disk" }]
    ⟨{ Name := "web", Token := "tok1", DiscoveryTime := 1, DiscoveryMethod := "file on disk" },
      by decide, by decide⟩

/-- C2: a name whose trimmed form differs from the trimmed name of every identity
of the registry is added: `AddNewServiceAccount` returns `true`, the new registry
is the old one followed by one identity carrying the name as passed, the token,
the discovery method and the time, so the length grows by one and the first
entries are the old registry. -/
theorem addNewServiceAccount_new (name token discoveryMethod : String) (now : Nat)
    (l : List ServiceAccount)
    (h : ∀ sa ∈ l, strings.TrimSpace sa.Name ≠ strings.TrimSpace name) :
    AddNewServiceAccount name token discoveryMethod now l =
        (true, l ++ [{ Name := name, Token := token, DiscoveryTime := now,
                       DiscoveryMethod := discoveryMethod }]) ∧
      (AddNewServiceAccount name token discoveryMethod now l).2.length = l.length + 1 ∧
      (AddNewServiceAccount name token discoveryMethod now l).2.take l.length = l := by
  have hf : AddNewServiceAccount.found name l = false := by
    cases hc : AddNewServiceAccount.found name l with
    | false => rfl
    | true =>
      obtain ⟨sa, hsa, heq⟩ := (found_eq_true_iff name l).1 hc
      exact absurd heq (h sa hsa)
  simp [AddNewServiceAccount, hf]

/-- C2 at a concrete input: `" db "` is added, untrimmed, behind `"web"`. -/
theorem addNewServiceAccount_new_witness :
    AddNewServiceAccount " db " "tok2" "user input" 7
        [{ Name := "web", Token := "tok1", DiscoveryTime := 1, DiscoveryMethod := "file on disk" }]
      = (true,
        [{ Name := "web", Token := "tok1", DiscoveryTime := 1, DiscoveryMethod := "file on disk" },
         { Name := " db ", Token := "tok2", DiscoveryTime := 7, DiscoveryMethod := "user input" }]) :=
  (addNewServiceAccount_new " db " "tok2" "user input" 7
    [{ Name := "web", Token := "tok1", DiscoveryTime := 1, DiscoveryMethod := "file on disk" }]
    (by decide)).1

/-- One call of `AddNewServiceAccount` keeps the registry invariant. -/
theorem noSharedTrimmedName_add (name token discoveryMethod : String) (now : Nat)
    (l : List ServiceAccount) (h : NoSharedTrimmedName l) :
    NoSharedTrimmedName (AddNewServiceAccount name token discoveryMethod now l).2 := by
  cases hc : AddNewServiceAccount.found name l with
  | true => simpa [AddNewServiceAccount, hc] using h
  | false =>
    have hne : ∀ sa ∈ l, strings.TrimSpace sa.Name ≠ strings.TrimSpace name := by
      intro sa hsa heq
      have : AddNewServiceAccount.found name l = true :=
        (found_eq_true_iff name l).2 ⟨sa, hsa, heq⟩
      simp [hc] at this
    simp only [AddNewServiceAccount, hc, NoSharedTrimmedName, Bool.false_eq_true, if_false]
    rw [List.pairwise_append]
    refine ⟨h, List.pairwise_singleton _ _, ?_⟩
    intro a ha b hb
    simp only [List.mem_singleton] at hb
    subst hb
    exact hne a ha

/-- A sequence of `AddNewServiceAccount` calls keeps the registry invariant. -/
theorem noSharedTrimmedName_runAdds (calls : List AddCall) (l : List ServiceAccount)
    (h : NoSharedTrimmedName l) : NoSharedTrimmedName (runAdds l calls) := by
  induction calls generalizing l with
  | nil => simpa [runAdds] using h
  | cons c cs ih =>
    simp only [runAdds, List.foldl_cons]
    exact ih _ (noSharedTrimmedName_add c.name c.token c.discoveryMethod c.now l h)

/-- C3: the invariant "no two identities share the same trimmed name" is kept by
`AddNewServiceAccount`, and it holds of every registry built from the empty
registry by a sequence of `AddNewServiceAccount` calls. -/
theorem addNewServiceAccount_preserves_invariant (name token discoveryMethod : String)
    (now : Nat) (l : List ServiceAccount) (calls : List AddCall)
    (h : NoSharedTrimmedName l) :
    NoSharedTrimmedName (AddNewServiceAccount name token discoveryMethod now l).2 ∧
      NoSharedTrimmedName (runAdds [] calls) :=
  ⟨noSharedTrimmedName_add name token discoveryMethod now l h,
    noSharedTrimmedName_runAdds calls [] List.Pairwise.nil⟩

/-- C3 at a concrete input: a duplicate offered to a two-entry registry, and a
run of three calls from the empty registry of which the third is a duplicate. -/
theorem addNewServiceAccount_preserves_invariant_witness :
    NoSharedTrimmedName
        [{ Name := "web", Token := "t1", DiscoveryTime := 1, DiscoveryMethod := "m" },
         { Name := "db", Token := "t2", DiscoveryTime := 2, DiscoveryMethod := "m" }] ∧
      NoSharedTrimmedName (AddNewServiceAccount "db " "t3" "m" 3
        [{ Name := "web", Token := "t1", DiscoveryTime := 1, DiscoveryMethod := "m" },
         { Name := "db", Token := "t2", DiscoveryTime := 2, DiscoveryMethod := "m" }]).2 ∧
      NoSharedTrimmedName (runAdds []
        [{ name := "web", token := "t1", discoveryMethod := "m", now := 1 },
         { name := "db", token := "t2", discoveryMethod := "m", now := 2 },
         { name := " web", token := "t3", discoveryMethod := "m", now := 3 }]) :=
  have h0 : NoSharedTrimmedName
      [{ Name := "web", Token := "t1", DiscoveryTime := 1, DiscoveryMethod := "m" },
       { Name := "db", Token := "t2", DiscoveryTime := 2, DiscoveryMethod := "m" }] := by
    unfold NoSharedTrimmedName
    decide
  ⟨h0, addNewServiceAccount_preserves_invariant "db " "t3" "m" 3 _ _ h0⟩

/-! ## Connection binder -/

/-- C4, the claim at a concrete input: a token bind made on a context that holds
a CA path and an API server leaves both in place, so the five fields the claim
lists are not all empty afterwards. -/
theorem assignServiceAccount_keeps_caPath_apiServer :
    (assignServiceAccountToConnection
        { Name := "sa", Token := "tok", DiscoveryTime := 0, DiscoveryMethod := "user input" }
        ({ APIServer := "https://10.96.0.1:443", Token := "", TokenName := "",
           ClientCertData := "cert", ClientKeyData := "key", ClientCertName := "admin",
           CAPath := "/tmp/1-ca.crt", Namespace := "default", Rest := () } :
          ServerInfo Unit)).CAPath = "/tmp/1-ca.crt" ∧
      (assignServiceAccountToConnection
        { Name := "sa", Token := "tok", DiscoveryTime := 0, DiscoveryMethod := "user input" }
        ({ APIServer := "https://10.96.0.1:443", Token := "", TokenName := "",
           ClientCertData := "cert", ClientKeyData := "key", ClientCertName := "admin",
           CAPath := "/tmp/1-ca.crt", Namespace := "default", Rest := () } :
          ServerInfo Unit)).APIServer = "https://10.96.0.1:443" ∧
      ¬ ((assignServiceAccountToConnection
        { Name := "sa", Token := "tok", DiscoveryTime := 0, DiscoveryMethod := "user input" }
        ({ APIServer := "https://10.96.0.1:443", Token := "", TokenName := "",
           ClientCertData := "cert", ClientKeyData := "key", ClientCertName := "admin",
           CAPath := "/tmp/1-ca.crt", Namespace := "default", Rest := () } :
          ServerInfo Unit)).CAPath = "" ∧
        (assignServiceAccountToConnection
        { Name := "sa", Token := "tok", DiscoveryTime := 0, DiscoveryMethod := "user input" }
        ({ APIServer := "https://10.96.0.1:443", Token := "", TokenName := "",
           ClientCertData := "cert", ClientKeyData := "key", ClientCertName := "admin",
           CAPath := "/tmp/1-ca.crt", Namespace := "default", Rest := () } :
          ServerInfo Unit)).APIServer = "") := by
  decide

/-- C4, amended: for every identity and every context, after
`assignServiceAccountToConnection` the client certificate name, certificate data
and key data are empty, and the CA path and the API server are the ones the
context had before the call. -/
theorem assignServiceAccount_zeroes_cert_fields {ρ : Type} (account : ServiceAccount)
    (info : ServerInfo ρ) :
    (assignServiceAccountToConnection account info).ClientCertName = "" ∧
      (assignServiceAccountToConnection account info).ClientCertData = "" ∧
      (assignServiceAccountToConnection account info).ClientKeyData = "" ∧
      (assignServiceAccountToConnection account info).CAPath = info.CAPath ∧
      (assignServiceAccountToConnection account info).APIServer = info.APIServer :=
  ⟨rfl, rfl, rfl, rfl, rfl⟩

/-- C6: for every identity and every context, after
`assignServiceAccountToConnection` the token name and the token are the
identity's name and token, and the client certificate data, key data and
certificate name are empty.  The operation is a total function: it cannot fail. -/
theorem assignServiceAccount_sets_token {ρ : Type} (account : ServiceAccount)
    (info : ServerInfo ρ) :
    (assignServiceAccountToConnection account info).TokenName = account.Name ∧
      (assignServiceAccountToConnection account info).Token = account.Token ∧
      (assignServiceAccountToConnection account info).ClientCertData = "" ∧
      (assignServiceAccountToConnection account info).ClientKeyData = "" ∧
      (assignServiceAccountToConnection account info).ClientCertName = "" :=
  ⟨rfl, rfl, rfl, rfl, rfl⟩

/-- C7: when the temporary CA file is created (its name has the random part
`rnd`) and written, `assignAuthenticationCertificateAndKeyToConnection` returns
a context whose client certificate data, key data, certificate name and API
server are the key pair's, whose CA path is the path of the temporary file,
whose namespace is "default" and whose token name and token are empty. -/
theorem assignCertificate_sets_fields {ρ : Type} (keypair : ClientCertificateKeyPair)
    (info : ServerInfo ρ) (fs : TempFile) (rnd : String)
    (hcreate : fs.createTemp = some rnd) (hwrite : fs.writeOk = true) :
    ∃ info1, assignAuthenticationCertificateAndKeyToConnection keypair info fs = some info1 ∧
      info1.ClientCertData = keypair.ClientCertificateData ∧
      info1.ClientKeyData = keypair.ClientKeyData ∧
      info1.ClientCertName = keypair.Name ∧
      info1.APIServer = keypair.APIServer ∧
      info1.CAPath = tmpFileName rnd ∧
      info1.Namespace = "default" ∧
      info1.TokenName = "" ∧
      info1.Token = "" := by
  simp [assignAuthenticationCertificateAndKeyToConnection, hcreate, hwrite]

/-- C7 at a concrete input: a key pair bound onto a context that held a token. -/
theorem assignCertificate_sets_fields_witness :
    ∃ info1 : ServerInfo Unit,
      assignAuthenticationCertificateAndKeyToConnection
        (MakeClientCertificateKeyPair "admin" "cert" "key" "https://10.96.0.1:443" "ca")
        { APIServer := "https://old:6443", Token := "tok", TokenName := "sa",
          ClientCertData := "", ClientKeyData := "", ClientCertName := "",
          CAPath := "/run/ca.crt", Namespace := "kube-system", Rest := () }
        { createTemp := some "123", writeOk := true } = some info1 ∧
      info1.ClientCertData = "cert" ∧ info1.ClientKeyData = "key" ∧
      info1.ClientCertName = "admin" ∧ info1.APIServer = "https://10.96.0.1:443" ∧
      info1.CAPath = tmpFileName "123" ∧ info1.Namespace = "default" ∧
      info1.TokenName = "" ∧ info1.Token = "" :=
  assignCertificate_sets_fields
    (MakeClientCertificateKeyPair "admin" "cert" "key" "https://10.96.0.1:443" "ca")
    { APIServer := "https://old:6443", Token := "tok", TokenName := "sa",
      ClientCertData := "", ClientKeyData := "", ClientCertName := "",
      CAPath := "/run/ca.crt", Namespace := "kube-system", Rest := () }
    { createTemp := some "123", writeOk := true } "123" rfl rfl

/-- A successful bind call returns a context. -/
theorem BindCall.apply_of_successful {ρ : Type} (c : BindCall) (info : ServerInfo ρ)
    (h : c.successful) : ∃ info1, c.apply info = some info1 := by
  cases c with
  | token account => exact ⟨_, rfl⟩
  | certificate keypair fs =>
    obtain ⟨hc, hw⟩ := h
    obtain ⟨rnd, hrnd⟩ := Option.isSome_iff_exists.1 hc
    simp [BindCall.apply, assignAuthenticationCertificateAndKeyToConnection, hrnd, hw]

/-- After a successful bind of an identity with non-empty identifying fields the
context is exclusive, whatever it held before. -/
theorem BindCall.apply_exclusive {ρ : Type} (c : BindCall) (info info1 : ServerInfo ρ)
    (hs : c.successful) (hn : c.identityNonEmpty) (h : c.apply info = some info1) :
    ExclusiveCredential info1 := by
  cases c with
  | token account =>
    simp only [BindCall.apply, Option.some.injEq] at h
    subst h
    exact Or.inl ⟨hn.1, hn.2, rfl, rfl, rfl⟩
  | certificate keypair fs =>
    obtain ⟨hc, hw⟩ := hs
    obtain ⟨rnd, hrnd⟩ := Option.isSome_iff_exists.1 hc
    simp only [BindCall.apply, assignAuthenticationCertificateAndKeyToConnection, hrnd, hw,
      Bool.not_true, Bool.false_eq_true, if_false, Option.some.injEq] at h
    subst h
    exact Or.inr ⟨hn.1, hn.2.1, hn.2.2, rfl, rfl⟩

/-- A sequence of binds followed by one more bind. -/
theorem runBinds_concat {ρ : Type} (cs : List BindCall) (c : BindCall) (info : ServerInfo ρ) :
    runBinds info (cs ++ [c]) = (runBinds info cs).bind (fun i => c.apply i) := by
  induction cs generalizing info with
  | nil =>
    simp only [List.nil_append, runBinds, Option.some_bind]
    cases c.apply info <;> rfl
  | cons d ds ih =>
    simp only [List.cons_append, runBinds]
    cases d.apply info with
    | none => rfl
    | some i => exact ih i

/-- A sequence of successful binds returns a context. -/
theorem runBinds_of_successful {ρ : Type} (cs : List BindCall) (info : ServerInfo ρ)
    (h : ∀ c ∈ cs, c.successful) : ∃ info1, runBinds info cs = some info1 := by
  induction cs generalizing info with
  | nil => exact ⟨info, rfl⟩
  | cons d ds ih =>
    obtain ⟨i, hi⟩ := d.apply_of_successful info (h d (List.mem_cons_self _ _))
    obtain ⟨j, hj⟩ := ih i (fun c hc => h c (List.mem_cons_of_mem _ hc))
    exact ⟨j, by simp [runBinds, hi, hj]⟩

/-- The context after a non-empty sequence of successful binds of non-empty
identities is exclusive. -/
theorem runBinds_exclusive {ρ : Type} (cs : List BindCall) (info : ServerInfo ρ)
    (hne : cs ≠ []) (h : ∀ c ∈ cs, c.successful ∧ c.identityNonEmpty) :
    ∃ info1, runBinds info cs = some info1 ∧ ExclusiveCredential info1 := by
  obtain ⟨init, last, rfl⟩ : ∃ init last, cs = init ++ [last] :=
    ⟨cs.dropLast, cs.getLast hne, (List.dropLast_append_getLast hne).symm⟩
  obtain ⟨i, hi⟩ := runBinds_of_successful init info
    (fun c hc => (h c (List.mem_append_left _ hc)).1)
  have hlast := h last (List.mem_append_right _ (List.mem_singleton_self _))
  obtain ⟨j, hj⟩ := last.apply_of_successful i hlast.1
  refine ⟨j, ?_, last.apply_exclusive i j hlast.1 hlast.2 hj⟩
  rw [runBinds_concat, hi]
  exact hj

/-- C5, the claim at two concrete inputs.  A token bind of an identity whose name
and token are empty, on a context whose fields are empty, leaves no kind with a
non-empty field.  A certificate bind followed by a token bind, both of non-empty
identities and both successful, leaves the token kind active while the CA path
and the API server of the certificate kind are still set. -/
theorem binds_not_exactlyOneKind :
    (BindCall.token
        { Name := "", Token := "", DiscoveryTime := 0, DiscoveryMethod := "user input" }).successful ∧
      (∃ info1 : ServerInfo Unit,
        runBinds
          { APIServer := "", Token := "", TokenName := "", ClientCertData := "",
            ClientKeyData := "", ClientCertName := "", CAPath := "", Namespace := "",
            Rest := () }
          [.token { Name := "", Token := "", DiscoveryTime := 0,
                    DiscoveryMethod := "user input" }] = some info1 ∧
        ¬ ExactlyOneKind info1) ∧
      (∀ c ∈ [BindCall.certificate
                (MakeClientCertificateKeyPair "admin" "cert" "key" "https://10.96.0.1:443" "ca")
                { createTemp := some "123", writeOk := true },
              BindCall.token { Name := "sa", Token := "tok", DiscoveryTime := 0,
                               DiscoveryMethod := "user input" }],
        c.successful ∧ c.identityNonEmpty) ∧
      (∃ info1 : ServerInfo Unit,
        runBinds
          { APIServer := "", Token := "", TokenName := "", ClientCertData := "",
            ClientKeyData := "", ClientCertName := "", CAPath := "", Namespace := "",
            Rest := () }
          [.certificate
              (MakeClientCertificateKeyPair "admin" "cert" "key" "https://10.96.0.1:443" "ca")
              { createTemp := some "123", writeOk := true },
            .token { Name := "sa", Token := "tok", DiscoveryTime := 0,
                     DiscoveryMethod := "user input" }] = some info1 ∧
        info1.TokenName = "sa" ∧ info1.CAPath = "/tmp/123-ca.crt" ∧
        info1.APIServer = "https://10.96.0.1:443" ∧
        ¬ ExactlyOneKind info1) := by
  refine ⟨trivial, ⟨_, rfl, ?_⟩, ?_, ⟨_, rfl, ?_⟩⟩
  · unfold ExactlyOneKind
    decide
  · simp only [List.forall_mem_cons, List.not_mem_nil, false_imp_iff, implies_true, and_true]
    unfold BindCall.successful BindCall.identityNonEmpty MakeClientCertificateKeyPair
    decide
  · unfold ExactlyOneKind
    decide

/-- C5, amended: for every starting context and every finite sequence of
successful bind calls whose identities have non-empty identifying fields (name
and token; name, certificate and key), after each call either the token name and
value are non-empty and the client certificate, key and certificate name are
empty, or the client certificate, key and certificate name are non-empty and the
token name and value are empty.  The CA path and the API server are in neither
group. -/
theorem binds_exclusive {ρ : Type} (info : ServerInfo ρ) (calls : List BindCall)
    (h : ∀ c ∈ calls, c.successful ∧ c.identityNonEmpty)
    (k : Nat) (hk0 : 0 < k) (hk : k ≤ calls.length) :
    ∃ info1, runBinds info (calls.take k) = some info1 ∧ ExclusiveCredential info1 := by
  apply runBinds_exclusive
  · intro hnil
    have hlen : (calls.take k).length = 0 := by rw [hnil]; rfl
    rw [List.length_take] at hlen
    omega
  · intro c hc
    exact h c (List.mem_of_mem_take hc)

/-- C5, amended, at a concrete input: token, certificate, token; the context
after the second of the three calls. -/
theorem binds_exclusive_witness :
    ∃ info1 : ServerInfo Unit,
      runBinds
        { APIServer := "https://old:6443", Token := "", TokenName := "", ClientCertData := "",
          ClientKeyData := "", ClientCertName := "", CAPath := "", Namespace := "",
          Rest := () }
        ([BindCall.token { Name := "sa", Token := "tok", DiscoveryTime := 0,
                           DiscoveryMethod := "user input" },
          BindCall.certificate
            (MakeClientCertificateKeyPair "admin" "cert" "key" "https://10.96.0.1:443" "ca")
            { createTemp := some "123", writeOk := true },
          BindCall.token { Name := "sb", Token := "tok2", DiscoveryTime := 1,
                           DiscoveryMethod := "cluster secret" }].take 2) = some info1 ∧
      ExclusiveCredential info1 :=
  binds_exclusive _ _
    (by
      simp only [List.forall_mem_cons, List.not_mem_nil, false_imp_iff, implies_true, and_true]
      unfold BindCall.successful BindCall.identityNonEmpty MakeClientCertificateKeyPair
      decide)
    2 (by decide) (by decide)

/-! ## Token claims decoder -/

/-- The literal `json.float64Overflow` is `2^1024 - 2^970`. -/
theorem json.float64Overflow_eq : json.float64Overflow = 2 ^ 1024 - 2 ^ 970 := by
  decide!

/-- A list without the separator is one piece. -/
theorem strings.splitChars_of_not_mem (sep : Char) (cs : List Char) (h : sep ∉ cs) :
    strings.splitChars sep cs = [cs] := by
  induction cs with
  | nil => rfl
  | cons c rest ih =>
    have hc : c ≠ sep := fun e => h (e ▸ List.mem_cons_self _ _)
    have hr : sep ∉ rest := fun m => h (List.mem_cons_of_mem _ m)
    simp [strings.splitChars, hc, ih hr]

/-- The first piece ends at the first separator. -/
theorem strings.splitChars_append_sep (sep : Char) (a b : List Char) (h : sep ∉ a) :
    strings.splitChars sep (a ++ sep :: b) = a :: strings.splitChars sep b := by
  induction a with
  | nil => simp [strings.splitChars]
  | cons c rest ih =>
    have hc : c ≠ sep := fun e => h (e ▸ List.mem_cons_self _ _)
    have hr : sep ∉ rest := fun m => h (List.mem_cons_of_mem _ m)
    simp [strings.splitChars, hc, ih hr]

/-- The number of pieces is the number of separators plus one. -/
theorem strings.splitChars_length (sep : Char) (cs : List Char) :
    (strings.splitChars sep cs).length = cs.count sep + 1 := by
  induction cs with
  | nil => rfl
  | cons c rest ih =>
    by_cases hc : c = sep
    · subst hc
      simp [strings.splitChars, ih]
    · have hlen : (strings.splitChars sep (c :: rest)).length =
          (strings.splitChars sep rest).length := by
        simp only [strings.splitChars, hc, if_false]
        cases hs : strings.splitChars sep rest with
        | nil => simp [hs] at ih
        | cons p ps => rfl
      rw [hlen, ih, List.count_cons_of_ne (Ne.symm hc)]

/-- A token of three dot-free segments splits into these segments. -/
theorem strings.Split_three (hdr mid sig : String) (hh : '.' ∉ hdr.data)
    (hm : '.' ∉ mid.data) (hs : '.' ∉ sig.data) :
    strings.Split (hdr ++ "." ++ mid ++ "." ++ sig) '.' = [hdr, mid, sig] := by
  have hdata : (hdr ++ "." ++ mid ++ "." ++ sig).data =
      hdr.data ++ '.' :: (mid.data ++ '.' :: sig.data) := by
    simp [String.data_append]
  simp only [strings.Split, hdata]
  rw [strings.splitChars_append_sep _ _ _ hh, strings.splitChars_append_sep _ _ _ hm,
    strings.splitChars_of_not_mem _ _ hs]
  rfl

/-- Induction on a list three elements at a time. -/
theorem list_induction_by_three {α : Type} {P : List α → Prop} (h0 : P [])
    (h1 : ∀ a, P [a]) (h2 : ∀ a b, P [a, b])
    (h3 : ∀ a b c rest, P rest → P (a :: b :: c :: rest)) : ∀ l, P l
  | [] => h0
  | [a] => h1 a
  | [a, b] => h2 a b
  | a :: b :: c :: rest => h3 a b c rest (list_induction_by_three h0 h1 h2 h3 rest)

/-- In the raw URL encoding every 6-bit value decodes back from its character,
and its character is neither a line break nor a dot. -/
theorem base64.rawURL_encodeChar (v : Nat) (hv : v < 64) :
    base64.RawURLEncoding.decodeMap (base64.RawURLEncoding.encodeChar v) = some v ∧
      base64.RawURLEncoding.encodeChar v ≠ '\n' ∧
      base64.RawURLEncoding.encodeChar v ≠ '\r' ∧
      base64.RawURLEncoding.encodeChar v ≠ '.' := by
  have key : ∀ w, w < 64 →
      base64.RawURLEncoding.decodeMap (base64.RawURLEncoding.encodeChar w) = some w ∧
      base64.RawURLEncoding.encodeChar w ≠ '\n' ∧
      base64.RawURLEncoding.encodeChar w ≠ '\r' ∧
      base64.RawURLEncoding.encodeChar w ≠ '.' := by
    decide
  exact key v hv

/-- The bytes of a quantum built from three bytes are these bytes. -/
theorem base64.quantum_of_bytes (a b c : Nat) (ha : a < 256) (hb : b < 256) (hc : c < 256) :
    base64.quantum (a / 4) (a % 4 * 16 + b / 16) (b % 16 * 4 + c / 64) (c % 64) = (a, b, c) := by
  simp only [base64.quantum, Prod.mk.injEq]
  norm_num
  omega

/-- The raw URL encoding of a byte string holds no line break and no dot. -/
theorem base64.rawURL_encodeChunks_chars (bs : List Nat) (hb : ∀ b ∈ bs, b < 256) :
    ∀ ch ∈ base64.RawURLEncoding.encodeChunks bs, ch ≠ '\n' ∧ ch ≠ '\r' ∧ ch ≠ '.' := by
  induction bs using list_induction_by_three with
  | h0 => intro ch hch; simp [base64.Encoding.encodeChunks] at hch
  | h1 a =>
    have ha : a < 256 := hb a (by simp)
    intro ch hch
    simp only [base64.Encoding.encodeChunks, base64.RawURLEncoding, List.append_nil,
      List.mem_cons, List.mem_singleton, List.not_mem_nil, or_false] at hch
    rcases hch with rfl | rfl
    · exact (base64.rawURL_encodeChar (a / 4) (by omega)).2
    · exact (base64.rawURL_encodeChar (a % 4 * 16) (by omega)).2
  | h2 a b =>
    have ha : a < 256 := hb a (by simp)
    have hb2 : b < 256 := hb b (by simp)
    intro ch hch
    simp only [base64.Encoding.encodeChunks, base64.RawURLEncoding, List.append_nil,
      List.mem_cons, List.mem_singleton, List.not_mem_nil, or_false] at hch
    rcases hch with rfl | rfl | rfl
    · exact (base64.rawURL_encodeChar (a / 4) (by omega)).2
    · exact (base64.rawURL_encodeChar (a % 4 * 16 + b / 16) (by omega)).2
    · exact (base64.rawURL_encodeChar (b % 16 * 4) (by omega)).2
  | h3 a b c rest ih =>
    have ha : a < 256 := hb a (by simp)
    have hb2 : b < 256 := hb b (by simp)
    have hc : c < 256 := hb c (by simp)
    have hrest : ∀ x ∈ rest, x < 256 := fun x hx => hb x (by simp [hx])
    intro ch hch
    simp only [base64.Encoding.encodeChunks, List.mem_cons] at hch
    rcases hch with rfl | rfl | rfl | rfl | hch
    · exact (base64.rawURL_encodeChar (a / 4) (by omega)).2
    · exact (base64.rawURL_encodeChar (a % 4 * 16 + b / 16) (by omega)).2
    · exact (base64.rawURL_encodeChar (b % 16 * 4 + c / 64) (by omega)).2
    · exact (base64.rawURL_encodeChar (c % 64) (by omega)).2
    · exact ih hrest ch hch

/-- Decoding the characters of the raw URL encoding of a byte string gives the
byte string back. -/
theorem base64.rawURL_decodeChunks_encodeChunks (bs : List Nat) (hb : ∀ b ∈ bs, b < 256) :
    base64.RawURLEncoding.decodeChunks (base64.RawURLEncoding.encodeChunks bs) = some bs := by
  induction bs using list_induction_by_three with
  | h0 => rfl
  | h1 a =>
    have ha : a < 256 := hb a (by simp)
    have e0 := (base64.rawURL_encodeChar (a / 4) (by omega)).1
    have e1 := (base64.rawURL_encodeChar (a % 4 * 16) (by omega)).1
    have hq := base64.quantum_of_bytes a 0 0 ha (by omega) (by omega)
    simp only [Nat.zero_div, Nat.add_zero, Nat.zero_mod, Nat.zero_mul] at hq
    have hpad : base64.RawURLEncoding.padChar = none := rfl
    simp [base64.Encoding.encodeChunks, base64.Encoding.decodeChunks, e0, e1, hq, hpad]
  | h2 a b =>
    have ha : a < 256 := hb a (by simp)
    have hb2 : b < 256 := hb b (by simp)
    have e0 := (base64.rawURL_encodeChar (a / 4) (by omega)).1
    have e1 := (base64.rawURL_encodeChar (a % 4 * 16 + b / 16) (by omega)).1
    have e2 := (base64.rawURL_encodeChar (b % 16 * 4) (by omega)).1
    have hq := base64.quantum_of_bytes a b 0 ha hb2 (by omega)
    simp only [Nat.zero_div, Nat.add_zero, Nat.zero_mod] at hq
    have hpad : base64.RawURLEncoding.padChar = none := rfl
    simp [base64.Encoding.encodeChunks, base64.Encoding.decodeChunks, e0, e1, e2, hq, hpad]
  | h3 a b c rest ih =>
    have ha : a < 256 := hb a (by simp)
    have hb2 : b < 256 := hb b (by simp)
    have hc : c < 256 := hb c (by simp)
    have hrest : ∀ x ∈ rest, x < 256 := fun x hx => hb x (by simp [hx])
    have e0 := (base64.rawURL_encodeChar (a / 4) (by omega)).1
    have e1 := (base64.rawURL_encodeChar (a % 4 * 16 + b / 16) (by omega)).1
    have e2 := (base64.rawURL_encodeChar (b % 16 * 4 + c / 64) (by omega)).1
    have e3 := (base64.rawURL_encodeChar (c % 64) (by omega)).1
    have hq := base64.quantum_of_bytes a b c ha hb2 hc
    simp [base64.Encoding.encodeChunks, base64.Encoding.decodeChunks, e0, e1, e2, e3, hq,
      ih hrest]

/-- Go's round trip `RawURLEncoding.DecodeString(RawURLEncoding.EncodeToString(bs))`. -/
theorem base64.rawURL_DecodeString_EncodeToString (bs : List Nat) (hb : ∀ b ∈ bs, b < 256) :
    base64.RawURLEncoding.DecodeString (base64.RawURLEncoding.EncodeToString bs) = some bs := by
  have hfilter : (base64.RawURLEncoding.encodeChunks bs).filter
      (fun c => !(c = '\n' || c = '\r')) = base64.RawURLEncoding.encodeChunks bs := by
    rw [List.filter_eq_self]
    intro ch hch
    obtain ⟨h1, h2, _⟩ := base64.rawURL_encodeChunks_chars bs hb ch hch
    simp [h1, h2]
  simp only [base64.Encoding.DecodeString, base64.Encoding.EncodeToString, hfilter]
  exact base64.rawURL_decodeChunks_encodeChunks bs hb

/-- On a token of three dot-free segments the decoder works on the middle one. -/
theorem parse_return_sub_three (hdr mid sig : String) (hh : '.' ∉ hdr.data)
    (hm : '.' ∉ mid.data) (hs : '.' ∉ sig.data) :
    parseServiceAccountJWT_return_sub (hdr ++ "." ++ mid ++ "." ++ sig) =
      match base64.RawURLEncoding.DecodeString mid with
      | none => (0, "", some .decodingPayload)
      | some payload =>
        match json.Unmarshal payload with
        | .error err => (0, "", some (.parsingJSON err))
        | .ok claims =>
          match json.mapIndex claims "sub" with
          | some (.string sub) => (0, sub, none)
          | _ => (0, "", some .subNotFound) := by
  simp [parseServiceAccountJWT_return_sub, strings.Split_three hdr mid sig hh hm hs]

/-- C8: a token of exactly three dot-separated segments whose middle segment is
the base64url (unpadded, as in a JWT) encoding of a byte string that
`json.Unmarshal` reads as a JSON object whose "sub" member is the string `S`:
`parseServiceAccountJWT_return_sub` returns `S` with a nil error. -/
theorem parse_return_sub_ok (S hdr sig : String) (payload : List Nat)
    (claims : List (String × json.Value))
    (hh : '.' ∉ hdr.data) (hs : '.' ∉ sig.data) (hb : ∀ b ∈ payload, b < 256)
    (hj : json.Unmarshal payload = .ok claims)
    (hsub : json.mapIndex claims "sub" = some (.string S)) :
    parseServiceAccountJWT_return_sub
        (hdr ++ "." ++ base64.RawURLEncoding.EncodeToString payload ++ "." ++ sig) =
      (0, S, none) := by
  have hm : '.' ∉ (base64.RawURLEncoding.EncodeToString payload).data := by
    intro hmem
    exact (base64.rawURL_encodeChunks_chars payload hb '.' hmem).2.2 rfl
  rw [parse_return_sub_three hdr _ sig hh hm hs,
    base64.rawURL_DecodeString_EncodeToString payload hb]
  simp only [hj, hsub]

/-- C8 at a concrete input: the payload is `{"sub":"system:serviceaccount:default:default"}`. -/
theorem parse_return_sub_ok_witness :
    "h" ++ "." ++ base64.RawURLEncoding.EncodeToString
        [123, 34, 115, 117, 98, 34, 58, 34, 115, 121, 115, 116, 101, 109, 58, 115, 101, 114,
         118, 105, 99, 101, 97, 99, 99, 111, 117, 110, 116, 58, 100, 101, 102, 97, 117, 108,
         116, 58, 100, 101, 102, 97, 117, 108, 116, 34, 125] ++ "." ++ "s" =
        "h.eyJzdWIiOiJzeXN0ZW06c2VydmljZWFjY291bnQ6ZGVmYXVsdDpkZWZhdWx0In0.s" ∧
      parseServiceAccountJWT_return_sub
        ("h" ++ "." ++ base64.RawURLEncoding.EncodeToString
          [123, 34, 115, 117, 98, 34, 58, 34, 115, 121, 115, 116, 101, 109, 58, 115, 101, 114,
           118, 105, 99, 101, 97, 99, 99, 111, 117, 110, 116, 58, 100, 101, 102, 97, 117, 108,
           116, 58, 100, 101, 102, 97, 117, 108, 116, 34, 125] ++ "." ++ "s") =
        (0, "system:serviceaccount:default:default", none) :=
  ⟨by decide,
    parse_return_sub_ok "system:serviceaccount:default:default" "h" "s" _
      [("sub", .string "system:serviceaccount:default:default")]
      (by decide) (by decide) (by decide) (by rfl) (by rfl)⟩

/-- C9: a token whose number of dot-separated parts (its number of dots plus one)
is not 3 is refused with the segment-count error, which carries the token, and
an empty subject; the content of the token plays no role. -/
theorem parse_return_sub_segment_count (tokenString : String)
    (h : tokenString.data.count '.' + 1 ≠ 3) :
    parseServiceAccountJWT_return_sub tokenString =
      (0, "", some (.invalidToken tokenString)) := by
  have hlen : (strings.Split tokenString '.').length ≠ 3 := by
    simpa [strings.Split, strings.splitChars_length] using h
  simp [parseServiceAccountJWT_return_sub, hlen]

/-- C9 at a concrete input: the empty token, which has one part. -/
theorem parse_return_sub_segment_count_witness :
    parseServiceAccountJWT_return_sub "" = (0, "", some (.invalidToken "")) :=
  parse_return_sub_segment_count "" (by decide)

/-- C10: a token of three dot-separated segments whose middle segment decodes to
a byte string that `json.Unmarshal` reads as a JSON object without a "sub" key,
or with a "sub" value that is not a string: `parseServiceAccountJWT_return_sub`
fails with the missing-subject error and an empty subject. -/
theorem parse_return_sub_missing (hdr mid sig : String) (payload : List Nat)
    (claims : List (String × json.Value))
    (hh : '.' ∉ hdr.data) (hm : '.' ∉ mid.data) (hs : '.' ∉ sig.data)
    (hd : base64.RawURLEncoding.DecodeString mid = some payload)
    (hj : json.Unmarshal payload = .ok claims)
    (hsub : json.mapIndex claims "sub" = none ∨
      ∃ v, json.mapIndex claims "sub" = some v ∧ ∀ S, v ≠ .string S) :
    parseServiceAccountJWT_return_sub (hdr ++ "." ++ mid ++ "." ++ sig) =
      (0, "", some .subNotFound) := by
  rw [parse_return_sub_three hdr mid sig hh hm hs]
  simp only [hd, hj]
  rcases hsub with hnone | ⟨v, hv, hns⟩
  · simp only [hnone]
  · simp only [hv]
    cases v with
    | string s => exact absurd rfl (hns s)
    | _ => rfl

/-- C10 at a concrete input: the payload is `{"sub":5}`, a "sub" that is a number. -/
theorem parse_return_sub_missing_witness :
    parseServiceAccountJWT_return_sub ("h" ++ "." ++ "eyJzdWIiOjV9" ++ "." ++ "s") =
      (0, "", some .subNotFound) :=
  parse_return_sub_missing "h" "eyJzdWIiOjV9" "s" [123, 34, 115, 117, 98, 34, 58, 53, 125]
    [("sub", .number { neg := false, mant := 5, exp10 := 0 })]
    (by decide) (by decide) (by decide) (by decide) (by rfl)
    (Or.inr ⟨_, rfl, fun S hS => by cases hS⟩)

/-! ## Full-claims decoder -/

/-- C11: when go-jose parses the token and stores claims that hold a number `E`
under "exp" and, under "kubernetes.io", an object with a string `N` under
"namespace" and an object under "serviceaccount" with a string `M` under "name",
`parseServiceAccountJWT` returns `int64(E)` and `N + ":" + M`. -/
theorem parseServiceAccountJWT_claims (jose : String → jwt.Answer) (tokenString : String)
    (claims k sa : List (String × json.Value)) (failed : Bool) (E : json.Number)
    (N M : String)
    (hjose : jose tokenString = .claims claims failed)
    (hexp : json.mapIndex claims "exp" = some (.number E))
    (hk : json.mapIndex claims "kubernetes.io" = some (.object k))
    (hns : json.mapIndex k "namespace" = some (.string N))
    (hsa : json.mapIndex k "serviceaccount" = some (.object sa))
    (hname : json.mapIndex sa "name" = some (.string M)) :
    parseServiceAccountJWT jose tokenString = .returned (E.toInt64, N ++ ":" ++ M) := by
  simp only [parseServiceAccountJWT, hjose, hexp, hk, hns, hsa, hname]

/-- C11 at the sample payload
`{"exp":1725391365,"kubernetes.io":{"namespace":"default","serviceaccount":{"name":"default"}}}`:
`json.Unmarshal` reads it as the claims below, and on these claims the function
returns `(1725391365, "default:default")`. -/
theorem parseServiceAccountJWT_claims_witness :
    json.Unmarshal
        [123, 34, 101, 120, 112, 34, 58, 49, 55, 50, 53, 51, 57, 49, 51, 54, 53, 44, 34, 107,
         117, 98, 101, 114, 110, 101, 116, 101, 115, 46, 105, 111, 34, 58, 123, 34, 110, 97,
         109, 101, 115, 112, 97, 99, 101, 34, 58, 34, 100, 101, 102, 97, 117, 108, 116, 34, 44,
         34, 115, 101, 114, 118, 105, 99, 101, 97, 99, 99, 111, 117, 110, 116, 34, 58, 123, 34,
         110, 97, 109, 101, 34, 58, 34, 100, 101, 102, 97, 117, 108, 116, 34, 125, 125, 125] =
        .ok [("exp", .number { neg := false, mant := 1725391365, exp10 := 0 }),
             ("kubernetes.io", .object [("namespace", .string "default"),
                ("serviceaccount", .object [("name", .string "default")])])] ∧
      parseServiceAccountJWT
        (fun _ => .claims
          [("exp", .number { neg := false, mant := 1725391365, exp10 := 0 }),
           ("kubernetes.io", .object [("namespace", .string "default"),
              ("serviceaccount", .object [("name", .string "default")])])] false)
        "eyJhbGciOiJSUzI1NiIsImtpZCI6ImsxIn0.eyJleHAiOjE3MjUzOTEzNjUsImt1YmVybmV0ZXMuaW8iOnsibmFtZXNwYWNlIjoiZGVmYXVsdCIsInNlcnZpY2VhY2NvdW50Ijp7Im5hbWUiOiJkZWZhdWx0In19fQ.c2ln" =
        .returned (1725391365, "default:default") :=
  ⟨by rfl,
    (parseServiceAccountJWT_claims
      (fun _ => .claims
        [("exp", .number { neg := false, mant := 1725391365, exp10 := 0 }),
         ("kubernetes.io", .object [("namespace", .string "default"),
            ("serviceaccount", .object [("name", .string "default")])])] false)
      "eyJhbGciOiJSUzI1NiIsImtpZCI6ImsxIn0.eyJleHAiOjE3MjUzOTEzNjUsImt1YmVybmV0ZXMuaW8iOnsibmFtZXNwYWNlIjoiZGVmYXVsdCIsInNlcnZpY2VhY2NvdW50Ijp7Im5hbWUiOiJkZWZhdWx0In19fQ.c2ln"
      [("exp", .number { neg := false, mant := 1725391365, exp10 := 0 }),
       ("kubernetes.io", .object [("namespace", .string "default"),
          ("serviceaccount", .object [("name", .string "default")])])]
      [("namespace", .string "default"), ("serviceaccount", .object [("name", .string "default")])]
      [("name", .string "default")] false { neg := false, mant := 1725391365, exp10 := 0 }
      "default" "default" rfl rfl rfl rfl rfl rfl).trans (by decide!)⟩

/-- C12, what the code does on a malformed token: when `ParseSigned` fails, or
when the claims go-jose stores are not those of a platform token (also when they
stay nil because the payload is not JSON), `parseServiceAccountJWT` does not
return: it panics. -/
theorem parseServiceAccountJWT_malformed_panics (jose : String → jwt.Answer)
    (tokenString : String)
    (h : jose tokenString = .parseError ∨
      ∃ claims failed, jose tokenString = .claims claims failed ∧
        ¬ jwt.HasPlatformClaims claims) :
    parseServiceAccountJWT jose tokenString = .panic := by
  rcases h with hp | ⟨claims, failed, hc, hno⟩
  · simp only [parseServiceAccountJWT, hp]
  · simp only [parseServiceAccountJWT, hc]
    split
    · rename_i E hexp
      split
      · rename_i k hk
        split
        · rename_i N hns
          split
          · rename_i sa hsa
            split
            · rename_i M hname
              exact absurd ⟨E, k, sa, N, M, hexp, hk, hns, hsa, hname⟩ hno
            · rfl
          · rfl
        · rfl
      · rfl
    · rfl

/-- C12 at a concrete input: the payload `{}` gives claims without "exp". -/
theorem parseServiceAccountJWT_malformed_panics_witness :
    parseServiceAccountJWT (fun _ => .claims [] false) "eyJhbGciOiJSUzI1NiJ9.e30.c2ln" =
      .panic :=
  parseServiceAccountJWT_malformed_panics _ _
    (Or.inr ⟨[], false, rfl, by
      rintro ⟨E, k, sa, N, M, hexp, _⟩
      simp [json.mapIndex] at hexp⟩)

set_option maxRecDepth 100000 in
/-- C13, the claim at the sample token, whose payload is
`{"exp":1725391365,"kubernetes.io":{"namespace":"default","serviceaccount":{"name":"default"}},"sub":"system:serviceaccount:default:default"}`:
the middle segment decodes to that payload, `json.Unmarshal` reads it as the
claims below, and on them the two decode paths return different expirations and
different subjects. -/
theorem decode_paths_differ :
    base64.RawURLEncoding.DecodeString
        "eyJleHAiOjE3MjUzOTEzNjUsImt1YmVybmV0ZXMuaW8iOnsibmFtZXNwYWNlIjoiZGVmYXVsdCIsInNlcnZpY2VhY2NvdW50Ijp7Im5hbWUiOiJkZWZhdWx0In19LCJzdWIiOiJzeXN0ZW06c2VydmljZWFjY291bnQ6ZGVmYXVsdDpkZWZhdWx0In0" =
        some
        [123, 34, 101, 120, 112, 34, 58, 49, 55, 50, 53, 51, 57, 49, 51, 54, 53, 44, 34, 107,
         117, 98, 101, 114, 110, 101, 116, 101, 115, 46, 105, 111, 34, 58, 123, 34, 110, 97, 109, 101,
         115, 112, 97, 99, 101, 34, 58, 34, 100, 101, 102, 97, 117, 108, 116, 34, 44, 34, 115, 101,
         114, 118, 105, 99, 101, 97, 99, 99, 111, 117, 110, 116, 34, 58, 123, 34, 110, 97, 109, 101,
         34, 58, 34, 100, 101, 102, 97, 117, 108, 116, 34, 125, 125, 44, 34, 115, 117, 98, 34, 58,
         34, 115, 121, 115, 116, 101, 109, 58, 115, 101, 114, 118, 105, 99, 101, 97, 99, 99, 111, 117,
         110, 116, 58, 100, 101, 102, 97, 117, 108, 116, 58, 100, 101, 102, 97, 117, 108, 116, 34, 125] ∧
      json.Unmarshal
        [123, 34, 101, 120, 112, 34, 58, 49, 55, 50, 53, 51, 57, 49, 51, 54, 53, 44, 34, 107,
         117, 98, 101, 114, 110, 101, 116, 101, 115, 46, 105, 111, 34, 58, 123, 34, 110, 97, 109, 101,
         115, 112, 97, 99, 101, 34, 58, 34, 100, 101, 102, 97, 117, 108, 116, 34, 44, 34, 115, 101,
         114, 118, 105, 99, 101, 97, 99, 99, 111, 117, 110, 116, 34, 58, 123, 34, 110, 97, 109, 101,
         34, 58, 34, 100, 101, 102, 97, 117, 108, 116, 34, 125, 125, 44, 34, 115, 117, 98, 34, 58,
         34, 115, 121, 115, 116, 101, 109, 58, 115, 101, 114, 118, 105, 99, 101, 97, 99, 99, 111, 117,
         110, 116, 58, 100, 101, 102, 97, 117, 108, 116, 58, 100, 101, 102, 97, 117, 108, 116, 34, 125] =
        .ok [("exp", .number { neg := false, mant := 1725391365, exp10 := 0 }),
           ("kubernetes.io", .object [("namespace", .string "default"),
              ("serviceaccount", .object [("name", .string "default")])]),
           ("sub", .string "system:serviceaccount:default:default")] ∧
      parseServiceAccountJWT
        (fun _ => .claims
          [("exp", .number { neg := false, mant := 1725391365, exp10 := 0 }),
           ("kubernetes.io", .object [("namespace", .string "default"),
              ("serviceaccount", .object [("name", .string "default")])]),
           ("sub", .string "system:serviceaccount:default:default")] false)
        "eyJhbGciOiJSUzI1NiIsImtpZCI6ImsxIn0.eyJleHAiOjE3MjUzOTEzNjUsImt1YmVybmV0ZXMuaW8iOnsibmFtZXNwYWNlIjoiZGVmYXVsdCIsInNlcnZpY2VhY2NvdW50Ijp7Im5hbWUiOiJkZWZhdWx0In19LCJzdWIiOiJzeXN0ZW06c2VydmljZWFjY291bnQ6ZGVmYXVsdDpkZWZhdWx0In0.c2ln" =
        .returned (1725391365, "default:default") ∧
      parseServiceAccountJWT_return_sub
        "eyJhbGciOiJSUzI1NiIsImtpZCI6ImsxIn0.eyJleHAiOjE3MjUzOTEzNjUsImt1YmVybmV0ZXMuaW8iOnsibmFtZXNwYWNlIjoiZGVmYXVsdCIsInNlcnZpY2VhY2NvdW50Ijp7Im5hbWUiOiJkZWZhdWx0In19LCJzdWIiOiJzeXN0ZW06c2VydmljZWFjY291bnQ6ZGVmYXVsdDpkZWZhdWx0In0.c2ln" =
        (0, "system:serviceaccount:default:default", none) ∧
      (1725391365 : Int) ≠ 0 ∧ "default:default" ≠ "system:serviceaccount:default:default" := by
  refine ⟨by decide!, by rfl, by decide!, by decide!, by decide, by decide⟩

/-- C13, amended: on a token of three dot-free segments whose middle segment is the
unpadded base64url encoding of a payload that `json.Unmarshal` reads as claims
with the platform fields and a string `S` under "sub", and for which go-jose
stores the same claims, both decode paths succeed and each returns its own
result: `parseServiceAccountJWT` returns `int64(exp)` and
`namespace + ":" + name`, `parseServiceAccountJWT_return_sub` returns the
expiration 0, the subject `S` and a nil error. -/
theorem decode_paths_results (jose : String → jwt.Answer) (hdr sig : String)
    (payload : List Nat) (claims k sa : List (String × json.Value)) (failed : Bool)
    (E : json.Number) (N M S : String)
    (hh : '.' ∉ hdr.data) (hs : '.' ∉ sig.data) (hb : ∀ b ∈ payload, b < 256)
    (hj : json.Unmarshal payload = .ok claims)
    (hjose : jose (hdr ++ "." ++ base64.RawURLEncoding.EncodeToString payload ++ "." ++ sig) =
      .claims claims failed)
    (hexp : json.mapIndex claims "exp" = some (.number E))
    (hk : json.mapIndex claims "kubernetes.io" = some (.object k))
    (hns : json.mapIndex k "namespace" = some (.string N))
    (hsa : json.mapIndex k "serviceaccount" = some (.object sa))
    (hname : json.mapIndex sa "name" = some (.string M))
    (hsub : json.mapIndex claims "sub" = some (.string S)) :
    parseServiceAccountJWT jose
        (hdr ++ "." ++ base64.RawURLEncoding.EncodeToString payload ++ "." ++ sig) =
        .returned (E.toInt64, N ++ ":" ++ M) ∧
      parseServiceAccountJWT_return_sub
        (hdr ++ "." ++ base64.RawURLEncoding.EncodeToString payload ++ "." ++ sig) =
        (0, S, none) := by
  constructor
  · simp only [parseServiceAccountJWT, hjose, hexp, hk, hns, hsa, hname]
  · have hm : '.' ∉ (base64.RawURLEncoding.EncodeToString payload).data := by
      intro hmem
      exact (base64.rawURL_encodeChunks_chars payload hb '.' hmem).2.2 rfl
    rw [parse_return_sub_three hdr _ sig hh hm hs,
      base64.rawURL_DecodeString_EncodeToString payload hb]
    simp only [hj, hsub]

set_option maxRecDepth 100000 in
/-- C13, amended, at the sample token. -/
theorem decode_paths_results_witness :
    parseServiceAccountJWT
        (fun _ => .claims
          [("exp", .number { neg := false, mant := 1725391365, exp10 := 0 }),
           ("kubernetes.io", .object [("namespace", .string "default"),
              ("serviceaccount", .object [("name", .string "default")])]),
           ("sub", .string "system:serviceaccount:default:default")] false)
        ("eyJhbGciOiJSUzI1NiIsImtpZCI6ImsxIn0" ++ "." ++ base64.RawURLEncoding.EncodeToString
          [123, 34, 101, 120, 112, 34, 58, 49, 55, 50, 53, 51, 57, 49, 51, 54, 53, 44, 34, 107,
         117, 98, 101, 114, 110, 101, 116, 101, 115, 46, 105, 111, 34, 58, 123, 34, 110, 97, 109, 101,
         115, 112, 97, 99, 101, 34, 58, 34, 100, 101, 102, 97, 117, 108, 116, 34, 44, 34, 115, 101,
         114, 118, 105, 99, 101, 97, 99, 99, 111, 117, 110, 116, 34, 58, 123, 34, 110, 97, 109, 101,
         34, 58, 34, 100, 101, 102, 97, 117, 108, 116, 34, 125, 125, 44, 34, 115, 117, 98, 34, 58,
         34, 115, 121, 115, 116, 101, 109, 58, 115, 101, 114, 118, 105, 99, 101, 97, 99, 99, 111, 117,
         110, 116, 58, 100, 101, 102, 97, 117, 108, 116, 58, 100, 101, 102, 97, 117, 108, 116, 34, 125] ++ "." ++ "c2ln") =
        .returned
          ((json.Number.mk false 1725391365 0).toInt64, "default" ++ ":" ++ "default") ∧
      parseServiceAccountJWT_return_sub
        ("eyJhbGciOiJSUzI1NiIsImtpZCI6ImsxIn0" ++ "." ++ base64.RawURLEncoding.EncodeToString
          [123, 34, 101, 120, 112, 34, 58, 49, 55, 50, 53, 51, 57, 49, 51, 54, 53, 44, 34, 107,
         117, 98, 101, 114, 110, 101, 116, 101, 115, 46, 105, 111, 34, 58, 123, 34, 110, 97, 109, 101,
         115, 112, 97, 99, 101, 34, 58, 34, 100, 101, 102, 97, 117, 108, 116, 34, 44, 34, 115, 101,
         114, 118, 105, 99, 101, 97, 99, 99, 111, 117, 110, 116, 34, 58, 123, 34, 110, 97, 109, 101,
         34, 58, 34, 100, 101, 102, 97, 117, 108, 116, 34, 125, 125, 44, 34, 115, 117, 98, 34, 58,
         34, 115, 121, 115, 116, 101, 109, 58, 115, 101, 114, 118, 105, 99, 101, 97, 99, 99, 111, 117,
         110, 116, 58, 100, 101, 102, 97, 117, 108, 116, 58, 100, 101, 102, 97, 117, 108, 116, 34, 125] ++ "." ++ "c2ln") =
        (0, "system:serviceaccount:default:default", none) :=
  decode_paths_results
    (fun _ => .claims
      [("exp", .number { neg := false, mant := 1725391365, exp10 := 0 }),
           ("kubernetes.io", .object [("namespace", .string "default"),
              ("serviceaccount", .object [("name", .string "default")])]),
           ("sub", .string "system:serviceaccount:default:default")] false)
    "eyJhbGciOiJSUzI1NiIsImtpZCI6ImsxIn0" "c2ln"
    [123, 34, 101, 120, 112, 34, 58, 49, 55, 50, 53, 51, 57, 49, 51, 54, 53, 44, 34, 107,
         117, 98, 101, 114, 110, 101, 116, 101, 115, 46, 105, 111, 34, 58, 123, 34, 110, 97, 109, 101,
         115, 112, 97, 99, 101, 34, 58, 34, 100, 101, 102, 97, 117, 108, 116, 34, 44, 34, 115, 101,
         114, 118, 105, 99, 101, 97, 99, 99, 111, 117, 110, 116, 34, 58, 123, 34, 110, 97, 109, 101,
         34, 58, 34, 100, 101, 102, 97, 117, 108, 116, 34, 125, 125, 44, 34, 115, 117, 98, 34, 58,
         34, 115, 121, 115, 116, 101, 109, 58, 115, 101, 114, 118, 105, 99, 101, 97, 99, 99, 111, 117,
         110, 116, 58, 100, 101, 102, 97, 117, 108, 116, 58, 100, 101, 102, 97, 117, 108, 116, 34, 125]
    [("exp", .number { neg := false, mant := 1725391365, exp10 := 0 }),
           ("kubernetes.io", .object [("namespace", .string "default"),
              ("serviceaccount", .object [("name", .string "default")])]),
           ("sub", .string "system:serviceaccount:default:default")]
    [("namespace", .string "default"), ("serviceaccount", .object [("name", .string "default")])]
    [("name", .string "default")] false { neg := false, mant := 1725391365, exp10 := 0 }
    "default" "default" "system:serviceaccount:default:default"
    (by decide) (by decide) (by decide!) (by rfl) rfl rfl rfl rfl rfl rfl rfl

/-! ## `unicode/utf8` round trip -/

/-- The code point of a character is below 0xD800, or above 0xDFFF and below
0x110000. -/
theorem Char.toNat_valid (c : Char) :
    c.toNat < 0xD800 ∨ (0xDFFF < c.toNat ∧ c.toNat < 0x110000) := by
  have h := c.valid
  simp only [UInt32.isValidChar, Nat.isValidChar] at h
  exact h


/-- One step of `utf8.runes`, on a byte string that is not empty. -/
theorem utf8.runes_cons (b0 : Nat) (rest : List Nat) :
    utf8.runes (b0 :: rest) =
      if b0 < 0x80 then Char.ofNat b0 :: utf8.runes rest
      else if 0xC2 ≤ b0 ∧ b0 ≤ 0xDF then
        match rest with
        | b1 :: rest1 =>
          if 0x80 ≤ b1 ∧ b1 ≤ 0xBF then
            Char.ofNat (b0 % 32 * 64 + b1 % 64) :: utf8.runes rest1
          else Char.ofNat 0xFFFD :: utf8.runes rest
        | [] => Char.ofNat 0xFFFD :: utf8.runes rest
      else if 0xE0 ≤ b0 ∧ b0 ≤ 0xEF then
        match rest with
        | b1 :: b2 :: rest2 =>
          if (if b0 = 0xE0 then 0xA0 else 0x80) ≤ b1 ∧ b1 ≤ (if b0 = 0xED then 0x9F else 0xBF)
              ∧ 0x80 ≤ b2 ∧ b2 ≤ 0xBF then
            Char.ofNat (b0 % 16 * 4096 + b1 % 64 * 64 + b2 % 64) :: utf8.runes rest2
          else Char.ofNat 0xFFFD :: utf8.runes rest
        | _ => Char.ofNat 0xFFFD :: utf8.runes rest
      else if 0xF0 ≤ b0 ∧ b0 ≤ 0xF4 then
        match rest with
        | b1 :: b2 :: b3 :: rest3 =>
          if (if b0 = 0xF0 then 0x90 else 0x80) ≤ b1 ∧ b1 ≤ (if b0 = 0xF4 then 0x8F else 0xBF)
              ∧ 0x80 ≤ b2 ∧ b2 ≤ 0xBF ∧ 0x80 ≤ b3 ∧ b3 ≤ 0xBF then
            Char.ofNat (b0 % 8 * 262144 + b1 % 64 * 4096 + b2 % 64 * 64 + b3 % 64) ::
              utf8.runes rest3
          else Char.ofNat 0xFFFD :: utf8.runes rest
        | _ => Char.ofNat 0xFFFD :: utf8.runes rest
      else Char.ofNat 0xFFFD :: utf8.runes rest := by
  cases rest with
  | nil => rfl
  | cons b1 r1 =>
    cases r1 with
    | nil => rfl
    | cons b2 r2 =>
      cases r2 with
      | nil => rfl
      | cons b3 r3 => rfl

/-- Decoding the encoding of a character gives the character back. -/
theorem utf8.runes_encodeRune_append (c : Char) (rest : List Nat) :
    utf8.runes (utf8.encodeRune c ++ rest) = c :: utf8.runes rest := by
  have hv := Char.toNat_valid c
  have hc : Char.ofNat c.toNat = c := Char.ofNat_toNat c
  by_cases h1 : c.toNat < 0x80
  · simp only [utf8.encodeRune, h1, if_true, List.cons_append, List.nil_append]
    rw [utf8.runes_cons]
    simp only [h1, if_true, hc]
  · by_cases h2 : c.toNat < 0x800
    · have e : (0xC0 + c.toNat / 64) % 32 * 64 + (0x80 + c.toNat % 64) % 64 = c.toNat := by omega
      have a1 : ¬ (0xC0 + c.toNat / 64 < 0x80) := by omega
      have a2 : 0xC2 ≤ 0xC0 + c.toNat / 64 ∧ 0xC0 + c.toNat / 64 ≤ 0xDF := by omega
      have a3 : 0x80 ≤ 0x80 + c.toNat % 64 ∧ 0x80 + c.toNat % 64 ≤ 0xBF := by omega
      simp only [utf8.encodeRune, h1, h2, if_false, if_true, List.cons_append, List.nil_append]
      rw [utf8.runes_cons]
      simp only [a1, a2, a3, e, hc, if_false, if_true, and_self]
    · by_cases h3 : c.toNat < 0x10000
      · have e : (0xE0 + c.toNat / 4096) % 16 * 4096 + (0x80 + c.toNat / 64 % 64) % 64 * 64 +
            (0x80 + c.toNat % 64) % 64 = c.toNat := by omega
        have a1 : ¬ (0xE0 + c.toNat / 4096 < 0x80) := by omega
        have a2 : ¬ (0xC2 ≤ 0xE0 + c.toNat / 4096 ∧ 0xE0 + c.toNat / 4096 ≤ 0xDF) := by omega
        have a3 : 0xE0 ≤ 0xE0 + c.toNat / 4096 ∧ 0xE0 + c.toNat / 4096 ≤ 0xEF := by omega
        have a4 : (if 0xE0 + c.toNat / 4096 = 0xE0 then 0xA0 else 0x80) ≤ 0x80 + c.toNat / 64 % 64 ∧
            0x80 + c.toNat / 64 % 64 ≤ (if 0xE0 + c.toNat / 4096 = 0xED then 0x9F else 0xBF) ∧
            0x80 ≤ 0x80 + c.toNat % 64 ∧ 0x80 + c.toNat % 64 ≤ 0xBF := by
          split <;> split <;> omega
        simp only [utf8.encodeRune, h1, h2, h3, if_false, if_true, List.cons_append,
          List.nil_append]
        rw [utf8.runes_cons]
        simp only [a1, a2, a3, a4, e, hc, if_false, if_true, and_self]
      · have e : (0xF0 + c.toNat / 262144) % 8 * 262144 + (0x80 + c.toNat / 4096 % 64) % 64 * 4096 +
            (0x80 + c.toNat / 64 % 64) % 64 * 64 + (0x80 + c.toNat % 64) % 64 = c.toNat := by omega
        have a1 : ¬ (0xF0 + c.toNat / 262144 < 0x80) := by omega
        have a2 : ¬ (0xC2 ≤ 0xF0 + c.toNat / 262144 ∧ 0xF0 + c.toNat / 262144 ≤ 0xDF) := by omega
        have a3 : ¬ (0xE0 ≤ 0xF0 + c.toNat / 262144 ∧ 0xF0 + c.toNat / 262144 ≤ 0xEF) := by omega
        have a4 : 0xF0 ≤ 0xF0 + c.toNat / 262144 ∧ 0xF0 + c.toNat / 262144 ≤ 0xF4 := by omega
        have a5 : (if 0xF0 + c.toNat / 262144 = 0xF0 then 0x90 else 0x80) ≤
              0x80 + c.toNat / 4096 % 64 ∧
            0x80 + c.toNat / 4096 % 64 ≤ (if 0xF0 + c.toNat / 262144 = 0xF4 then 0x8F else 0xBF) ∧
            0x80 ≤ 0x80 + c.toNat / 64 % 64 ∧ 0x80 + c.toNat / 64 % 64 ≤ 0xBF ∧
            0x80 ≤ 0x80 + c.toNat % 64 ∧ 0x80 + c.toNat % 64 ≤ 0xBF := by
          split <;> split <;> omega
        simp only [utf8.encodeRune, h1, h2, h3, if_false, if_true, List.cons_append,
          List.nil_append]
        rw [utf8.runes_cons]
        simp only [a1, a2, a3, a4, a5, e, hc, if_false, if_true, and_self]

/-- Decoding the UTF-8 encoding of a text gives the text back. -/
theorem utf8.runes_bytes (cs : List Char) : utf8.runes (utf8.bytes cs) = cs := by
  induction cs with
  | nil => rfl
  | cons c rest ih => rw [utf8.bytes, utf8.runes_encodeRune_append, ih]

/-- The bytes of a text are below 256. -/
theorem utf8.bytes_lt (cs : List Char) : ∀ b ∈ utf8.bytes cs, b < 256 := by
  induction cs with
  | nil => intro b hb; simp [utf8.bytes] at hb
  | cons c rest ih =>
    intro b hb
    have hv := Char.toNat_valid c
    simp only [utf8.bytes, List.mem_append] at hb
    rcases hb with hb | hb
    · simp only [utf8.encodeRune] at hb
      split at hb
      · simp only [List.mem_singleton] at hb; omega
      · split at hb
        · simp only [List.mem_cons, List.mem_singleton, List.not_mem_nil, or_false] at hb
          omega
        · split at hb
          · simp only [List.mem_cons, List.mem_singleton, List.not_mem_nil, or_false] at hb
            omega
          · simp only [List.mem_cons, List.mem_singleton, List.not_mem_nil, or_false] at hb
            omega
    · exact ih b hb

/-- Go's `string([]byte(s))` is `s`. -/
theorem stringOfBytes_bytes (s : String) : stringOfBytes (utf8.bytes s.data) = s := by
  simp [stringOfBytes, utf8.runes_bytes]

/-- The registry after a call with a name that is new. -/
theorem addNewServiceAccount_new_registry (name token discoveryMethod : String) (now : Nat)
    (l : List ServiceAccount)
    (h : ∀ sa ∈ l, strings.TrimSpace sa.Name ≠ strings.TrimSpace name) :
    (AddNewServiceAccount name token discoveryMethod now l).2 =
      l ++ [{ Name := name, Token := token, DiscoveryTime := now,
              DiscoveryMethod := discoveryMethod }] := by
  have hf : AddNewServiceAccount.found name l = false := by
    cases hc : AddNewServiceAccount.found name l with
    | false => rfl
    | true =>
      obtain ⟨sa, hsa, heq⟩ := (found_eq_true_iff name l).1 hc
      exact absurd heq (h sa hsa)
  simp [AddNewServiceAccount, hf]

/-! ## Secret-derived token importer -/

/-- In the standard encoding every 6-bit value decodes back from its character,
its character is no line break, and the padding character is outside the
alphabet. -/
theorem base64.std_encodeChar (v : Nat) (hv : v < 64) :
    base64.StdEncoding.decodeMap (base64.StdEncoding.encodeChar v) = some v ∧
      base64.StdEncoding.encodeChar v ≠ '\n' ∧
      base64.StdEncoding.encodeChar v ≠ '\r' := by
  have key : ∀ w, w < 64 →
      base64.StdEncoding.decodeMap (base64.StdEncoding.encodeChar w) = some w ∧
      base64.StdEncoding.encodeChar w ≠ '\n' ∧
      base64.StdEncoding.encodeChar w ≠ '\r' := by
    decide
  exact key v hv

/-- The standard encoding of a byte string holds no line break. -/
theorem base64.std_encodeChunks_chars (bs : List Nat) (hb : ∀ b ∈ bs, b < 256) :
    ∀ ch ∈ base64.StdEncoding.encodeChunks bs, ch ≠ '\n' ∧ ch ≠ '\r' := by
  induction bs using list_induction_by_three with
  | h0 => intro ch hch; simp [base64.Encoding.encodeChunks] at hch
  | h1 a =>
    have ha : a < 256 := hb a (by simp)
    intro ch hch
    simp only [base64.Encoding.encodeChunks, base64.StdEncoding, List.cons_append,
      List.nil_append, List.mem_cons, List.mem_singleton, List.not_mem_nil, or_false] at hch
    rcases hch with rfl | rfl | rfl | rfl
    · exact (base64.std_encodeChar (a / 4) (by omega)).2
    · exact (base64.std_encodeChar (a % 4 * 16) (by omega)).2
    · decide
    · decide
  | h2 a b =>
    have ha : a < 256 := hb a (by simp)
    have hb2 : b < 256 := hb b (by simp)
    intro ch hch
    simp only [base64.Encoding.encodeChunks, base64.StdEncoding, List.cons_append,
      List.nil_append, List.mem_cons, List.mem_singleton, List.not_mem_nil, or_false] at hch
    rcases hch with rfl | rfl | rfl | rfl
    · exact (base64.std_encodeChar (a / 4) (by omega)).2
    · exact (base64.std_encodeChar (a % 4 * 16 + b / 16) (by omega)).2
    · exact (base64.std_encodeChar (b % 16 * 4) (by omega)).2
    · decide
  | h3 a b c rest ih =>
    have ha : a < 256 := hb a (by simp)
    have hb2 : b < 256 := hb b (by simp)
    have hc : c < 256 := hb c (by simp)
    have hrest : ∀ x ∈ rest, x < 256 := fun x hx => hb x (by simp [hx])
    intro ch hch
    simp only [base64.Encoding.encodeChunks, List.mem_cons] at hch
    rcases hch with rfl | rfl | rfl | rfl | hch
    · exact (base64.std_encodeChar (a / 4) (by omega)).2
    · exact (base64.std_encodeChar (a % 4 * 16 + b / 16) (by omega)).2
    · exact (base64.std_encodeChar (b % 16 * 4 + c / 64) (by omega)).2
    · exact (base64.std_encodeChar (c % 64) (by omega)).2
    · exact ih hrest ch hch

/-- Decoding the characters of the standard encoding of a byte string gives the
byte string back. -/
theorem base64.std_decodeChunks_encodeChunks (bs : List Nat) (hb : ∀ b ∈ bs, b < 256) :
    base64.StdEncoding.decodeChunks (base64.StdEncoding.encodeChunks bs) = some bs := by
  have hpad : base64.StdEncoding.padChar = some '=' := rfl
  have hdpad : base64.StdEncoding.decodeMap '=' = none := by decide
  induction bs using list_induction_by_three with
  | h0 => rfl
  | h1 a =>
    have ha : a < 256 := hb a (by simp)
    have e0 := (base64.std_encodeChar (a / 4) (by omega)).1
    have e1 := (base64.std_encodeChar (a % 4 * 16) (by omega)).1
    have hq := base64.quantum_of_bytes a 0 0 ha (by omega) (by omega)
    simp only [Nat.zero_div, Nat.add_zero, Nat.zero_mod, Nat.zero_mul] at hq
    simp [base64.Encoding.encodeChunks, base64.Encoding.decodeChunks, e0, e1, hq, hpad, hdpad]
  | h2 a b =>
    have ha : a < 256 := hb a (by simp)
    have hb2 : b < 256 := hb b (by simp)
    have e0 := (base64.std_encodeChar (a / 4) (by omega)).1
    have e1 := (base64.std_encodeChar (a % 4 * 16 + b / 16) (by omega)).1
    have e2 := (base64.std_encodeChar (b % 16 * 4) (by omega)).1
    have hq := base64.quantum_of_bytes a b 0 ha hb2 (by omega)
    simp only [Nat.zero_div, Nat.add_zero, Nat.zero_mod] at hq
    simp [base64.Encoding.encodeChunks, base64.Encoding.decodeChunks, e0, e1, e2, hq, hpad,
      hdpad]
  | h3 a b c rest ih =>
    have ha : a < 256 := hb a (by simp)
    have hb2 : b < 256 := hb b (by simp)
    have hc : c < 256 := hb c (by simp)
    have hrest : ∀ x ∈ rest, x < 256 := fun x hx => hb x (by simp [hx])
    have e0 := (base64.std_encodeChar (a / 4) (by omega)).1
    have e1 := (base64.std_encodeChar (a % 4 * 16 + b / 16) (by omega)).1
    have e2 := (base64.std_encodeChar (b % 16 * 4 + c / 64) (by omega)).1
    have e3 := (base64.std_encodeChar (c % 64) (by omega)).1
    have hq := base64.quantum_of_bytes a b c ha hb2 hc
    simp [base64.Encoding.encodeChunks, base64.Encoding.decodeChunks, e0, e1, e2, e3, hq,
      ih hrest]

/-- Go's round trip `StdEncoding.DecodeString(StdEncoding.EncodeToString(bs))`. -/
theorem base64.std_DecodeString_EncodeToString (bs : List Nat) (hb : ∀ b ∈ bs, b < 256) :
    base64.StdEncoding.DecodeString (base64.StdEncoding.EncodeToString bs) = some bs := by
  have hfilter : (base64.StdEncoding.encodeChunks bs).filter
      (fun c => !(c = '\n' || c = '\r')) = base64.StdEncoding.encodeChunks bs := by
    rw [List.filter_eq_self]
    intro ch hch
    obtain ⟨h1, h2⟩ := base64.std_encodeChunks_chars bs hb ch hch
    simp [h1, h2]
  simp only [base64.Encoding.DecodeString, base64.Encoding.EncodeToString, hfilter]
  exact base64.std_decodeChunks_encodeChunks bs hb

/-- C14: a secret payload that `json.Unmarshal` reads as an object whose "type" is
a string other than "kubernetes.io/service-account-token", or whose "type" is
that string and whose data.token is a string that `StdEncoding.DecodeString`
refuses: the import returns with the registry as it was. -/
theorem importSecret_refused (secretName : String) (secretJSON : List Nat) (now : Nat)
    (serviceAccounts : List ServiceAccount) (secretData : List (String × json.Value))
    (hj : json.Unmarshal secretJSON = .ok secretData)
    (h : (∃ t, json.mapIndex secretData "type" = some (.string t) ∧
          t ≠ "kubernetes.io/service-account-token") ∨
      (json.mapIndex secretData "type" = some (.string "kubernetes.io/service-account-token") ∧
        ∃ data tok, json.mapIndex secretData "data" = some (.object data) ∧
          json.mapIndex data "token" = some (.string tok) ∧
          base64.StdEncoding.DecodeString tok = none)) :
    getServiceAccountTokenFromSecret.importSecret secretName secretJSON now serviceAccounts =
      .returned serviceAccounts := by
  rcases h with ⟨t, ht, hne⟩ | ⟨ht, data, tok, hdata, htok, hdec⟩
  · simp [getServiceAccountTokenFromSecret.importSecret, hj, ht, hne]
  · simp [getServiceAccountTokenFromSecret.importSecret, hj, ht, hdata, htok, hdec]

/-- C14 at a concrete input: the payload
`{"type":"Opaque","data":{"token":"YWJjMTIz"}}` offered to a registry of one
identity. -/
theorem importSecret_refused_witness :
    getServiceAccountTokenFromSecret.importSecret "s1"
        [123, 34, 116, 121, 112, 101, 34, 58, 34, 79, 112, 97, 113, 117, 101, 34, 44, 34, 100, 97,
         116, 97, 34, 58, 123, 34, 116, 111, 107, 101, 110, 34, 58, 34, 89, 87, 74, 106, 77, 84,
         73, 122, 34, 125, 125] 7
        [{ Name := "web", Token := "tok1", DiscoveryTime := 1, DiscoveryMethod := "file on disk" }] =
      .returned
        [{ Name := "web", Token := "tok1", DiscoveryTime := 1, DiscoveryMethod := "file on disk" }] :=
  importSecret_refused "s1"
    [123, 34, 116, 121, 112, 101, 34, 58, 34, 79, 112, 97, 113, 117, 101, 34, 44, 34, 100, 97,
         116, 97, 34, 58, 123, 34, 116, 111, 107, 101, 110, 34, 58, 34, 89, 87, 74, 106, 77, 84,
         73, 122, 34, 125, 125] 7
    [{ Name := "web", Token := "tok1", DiscoveryTime := 1, DiscoveryMethod := "file on disk" }]
    [("type", .string "Opaque"), ("data", .object [("token", .string "YWJjMTIz")])]
    (by rfl) (Or.inl ⟨"Opaque", rfl, by decide⟩)

/-- C15: a secret payload that `json.Unmarshal` reads as an object whose "type" is
"kubernetes.io/service-account-token" and whose data.token is the standard
base64 encoding of the bytes of a text `T`, imported under a secret name that
no identity of the registry has (after trim): the import returns the registry
followed by one identity with the secret's name, the token `T`, the time of the
call and the discovery method "Cluster Secret". -/
theorem importSecret_adds (secretName : String) (secretJSON : List Nat) (now : Nat)
    (serviceAccounts : List ServiceAccount) (secretData data : List (String × json.Value))
    (T : String)
    (hj : json.Unmarshal secretJSON = .ok secretData)
    (htype : json.mapIndex secretData "type" =
      some (.string "kubernetes.io/service-account-token"))
    (hdata : json.mapIndex secretData "data" = some (.object data))
    (htok : json.mapIndex data "token" =
      some (.string (base64.StdEncoding.EncodeToString (utf8.bytes T.data))))
    (hnew : ∀ sa ∈ serviceAccounts, strings.TrimSpace sa.Name ≠ strings.TrimSpace secretName) :
    getServiceAccountTokenFromSecret.importSecret secretName secretJSON now serviceAccounts =
      .returned (serviceAccounts ++
        [{ Name := secretName, Token := T, DiscoveryTime := now,
           DiscoveryMethod := "Cluster Secret" }]) := by
  have hdec := base64.std_DecodeString_EncodeToString (utf8.bytes T.data) (utf8.bytes_lt T.data)
  have hadd := (addNewServiceAccount_new_registry secretName T "Cluster Secret" now
    serviceAccounts hnew)
  simp [getServiceAccountTokenFromSecret.importSecret, hj, htype, hdata, htok, hdec,
    stringOfBytes_bytes, hadd]

/-- C15 at a concrete input: the payload
`{"type":"kubernetes.io/service-account-token","data":{"token":"YWJjMTIz"}}`,
whose token is the encoding of "abc123". -/
theorem importSecret_adds_witness :
    getServiceAccountTokenFromSecret.importSecret "s1"
        [123, 34, 116, 121, 112, 101, 34, 58, 34, 107, 117, 98, 101, 114, 110, 101, 116, 101, 115, 46,
         105, 111, 47, 115, 101, 114, 118, 105, 99, 101, 45, 97, 99, 99, 111, 117, 110, 116, 45, 116,
         111, 107, 101, 110, 34, 44, 34, 100, 97, 116, 97, 34, 58, 123, 34, 116, 111, 107, 101, 110,
         34, 58, 34, 89, 87, 74, 106, 77, 84, 73, 122, 34, 125, 125] 7
        [{ Name := "web", Token := "tok1", DiscoveryTime := 1, DiscoveryMethod := "file on disk" }] =
      .returned
        [{ Name := "web", Token := "tok1", DiscoveryTime := 1, DiscoveryMethod := "file on disk" },
         { Name := "s1", Token := "abc123", DiscoveryTime := 7,
           DiscoveryMethod := "Cluster Secret" }] :=
  importSecret_adds "s1"
    [123, 34, 116, 121, 112, 101, 34, 58, 34, 107, 117, 98, 101, 114, 110, 101, 116, 101, 115, 46,
         105, 111, 47, 115, 101, 114, 118, 105, 99, 101, 45, 97, 99, 99, 111, 117, 110, 116, 45, 116,
         111, 107, 101, 110, 34, 44, 34, 100, 97, 116, 97, 34, 58, 123, 34, 116, 111, 107, 101, 110,
         34, 58, 34, 89, 87, 74, 106, 77, 84, 73, 122, 34, 125, 125] 7
    [{ Name := "web", Token := "tok1", DiscoveryTime := 1, DiscoveryMethod := "file on disk" }]
    [("type", .string "kubernetes.io/service-account-token"),
     ("data", .object [("token", .string "YWJjMTIz")])]
    [("token", .string "YWJjMTIz")] "abc123"
    (by rfl) rfl rfl (by rfl) (by decide)

/-- C19, the claim at a concrete input: the identity the import adds carries the
discovery method "Cluster Secret", which is not the string "cluster secret". -/
theorem importSecret_tag_is_capitalised :
    getServiceAccountTokenFromSecret.importSecret "s1"
        [123, 34, 116, 121, 112, 101, 34, 58, 34, 107, 117, 98, 101, 114, 110, 101, 116, 101, 115, 46,
         105, 111, 47, 115, 101, 114, 118, 105, 99, 101, 45, 97, 99, 99, 111, 117, 110, 116, 45, 116,
         111, 107, 101, 110, 34, 44, 34, 100, 97, 116, 97, 34, 58, 123, 34, 116, 111, 107, 101, 110,
         34, 58, 34, 89, 87, 74, 106, 77, 84, 73, 122, 34, 125, 125] 7 [] =
      .returned [{ Name := "s1", Token := "abc123", DiscoveryTime := 7,
                   DiscoveryMethod := "Cluster Secret" }] ∧
      "Cluster Secret" ≠ "cluster secret" := by
  refine ⟨by decide!, by decide⟩

/-- C19, amended: whenever the import returns, the registry is the one passed in,
or the one passed in followed by one identity with the secret's name, the time
of the call and the fixed discovery method "Cluster Secret". -/
theorem importSecret_tag (secretName : String) (secretJSON : List Nat) (now : Nat)
    (serviceAccounts result : List ServiceAccount)
    (h : getServiceAccountTokenFromSecret.importSecret secretName secretJSON now
      serviceAccounts = .returned result) :
    result = serviceAccounts ∨
      ∃ token, result = serviceAccounts ++
        [{ Name := secretName, Token := token, DiscoveryTime := now,
           DiscoveryMethod := "Cluster Secret" }] := by
  unfold getServiceAccountTokenFromSecret.importSecret at h
  split at h
  · exact Or.inl (Outcome.returned.inj h).symm
  · split at h
    · split at h
      · exact Or.inl (Outcome.returned.inj h).symm
      · split at h
        · split at h
          · split at h
            · exact Or.inl (Outcome.returned.inj h).symm
            · rename_i token _
              have hr := (Outcome.returned.inj h).symm
              unfold AddNewServiceAccount at hr
              split at hr
              · exact Or.inl hr
              · exact Or.inr ⟨_, hr⟩
          · cases h
        · cases h
    · cases h

/-- C19, amended, at a concrete input. -/
theorem importSecret_tag_witness :
    [{ Name := "s1", Token := "abc123", DiscoveryTime := 7,
       DiscoveryMethod := "Cluster Secret" }] = ([] : List ServiceAccount) ∨
      ∃ token, [{ Name := "s1", Token := "abc123", DiscoveryTime := 7,
                  DiscoveryMethod := "Cluster Secret" }] = ([] : List ServiceAccount) ++
        [{ Name := "s1", Token := token, DiscoveryTime := 7,
           DiscoveryMethod := "Cluster Secret" }] :=
  importSecret_tag "s1"
    [123, 34, 116, 121, 112, 101, 34, 58, 34, 107, 117, 98, 101, 114, 110, 101, 116, 101, 115, 46,
         105, 111, 47, 115, 101, 114, 118, 105, 99, 101, 45, 97, 99, 99, 111, 117, 110, 116, 45, 116,
         111, 107, 101, 110, 34, 44, 34, 100, 97, 116, 97, 34, 58, 123, 34, 116, 111, 107, 101, 110,
         34, 58, 34, 89, 87, 74, 106, 77, 84, 73, 122, 34, 125, 125] 7 [] _ (by decide!)

/-! ## Listing and selecting identities -/

/-- C16: when the input is the word "exit", or when `fmt.Sscan` reads from it an
integer that is negative or at least the length of the registry,
`switchServiceAccounts` returns the connection context it was given, equal in
every field. -/
theorem switchServiceAccounts_unchanged {ρ : Type} (serviceAccounts : List ServiceAccount)
    (connectionString : ServerInfo ρ) (input : String) (Sscan : String → Option Int)
    (h : input = "exit" ∨
      ∃ tokNum, Sscan input = some tokNum ∧
        (tokNum < 0 ∨ tokNum ≥ serviceAccounts.length)) :
    switchServiceAccounts serviceAccounts connectionString input Sscan = connectionString := by
  unfold switchServiceAccounts
  rcases h with hexit | ⟨tokNum, hscan, hrange⟩
  · simp [hexit]
  · split
    · rfl
    · simp only [hscan]
      rw [dif_pos hrange]

/-- C16 at a concrete input: index 2 offered to a registry of two identities. -/
theorem switchServiceAccounts_unchanged_witness :
    switchServiceAccounts
        [{ Name := "web", Token := "t1", DiscoveryTime := 1, DiscoveryMethod := "m" },
         { Name := "db", Token := "t2", DiscoveryTime := 2, DiscoveryMethod := "m" }]
        ({ APIServer := "https://10.96.0.1:443", Token := "t1", TokenName := "web",
           ClientCertData := "", ClientKeyData := "", ClientCertName := "",
           CAPath := "/run/ca.crt", Namespace := "default", Rest := () } : ServerInfo Unit)
        "2" (fun s => if s = "2" then some 2 else none) =
      { APIServer := "https://10.96.0.1:443", Token := "t1", TokenName := "web",
        ClientCertData := "", ClientKeyData := "", ClientCertName := "",
        CAPath := "/run/ca.crt", Namespace := "default", Rest := () } :=
  switchServiceAccounts_unchanged _ _ "2" (fun s => if s = "2" then some 2 else none)
    (Or.inr ⟨2, by decide, by decide⟩)

/-- Joining strings, the first one taken out. -/
theorem String.join_cons_eq (x : String) (xs : List String) :
    String.join (x :: xs) = x ++ String.join xs := by
  have aux : ∀ (l : List String) (init : String),
      List.foldl (fun r s => r ++ s) init l = init ++ List.foldl (fun r s => r ++ s) "" l := by
    intro l
    induction l with
    | nil => intro init; simp
    | cons y ys ih =>
      intro init
      simp only [List.foldl_cons]
      rw [ih (init ++ y), ih ("" ++ y), String.append_assoc]
      simp
  simp only [String.join, List.foldl_cons]
  rw [aux xs ("" ++ x)]
  simp

/-- The loop of `listServiceAccounts` appends one entry per identity, numbered
from `i` on. -/
theorem listServiceAccounts.loop_eq (tokenName : String) (l : List ServiceAccount) (i : Nat)
    (output : String) :
    listServiceAccounts.loop tokenName i l output =
      output ++ String.join ((List.enumFrom i l).map
        (fun p => listServiceAccounts.entry tokenName p.1 p.2)) := by
  induction l generalizing i output with
  | nil => simp [listServiceAccounts.loop, String.join]
  | cons a rest ih =>
    simp only [listServiceAccounts.loop, List.enumFrom_cons, List.map_cons]
    rw [ih, String.join_cons_eq, String.append_assoc]

/-- C17: the text `listServiceAccounts` builds is the concatenation, in registry
order, of one entry per identity; the entry of the identity at index `i` is
`"> [i] name\n"` when its name is the context's `TokenName` and `"  [i] name\n"`
otherwise, so an entry starts with the mark `>` exactly when the name is the
active token name. -/
theorem listServiceAccounts_text {ρ : Type} (serviceAccounts : List ServiceAccount)
    (connectionString : ServerInfo ρ) :
    listServiceAccounts serviceAccounts connectionString =
        String.join ((List.enumFrom 0 serviceAccounts).map
          (fun p => listServiceAccounts.entry connectionString.TokenName p.1 p.2)) ∧
      ∀ (i : Nat) (account : ServiceAccount),
        (account.Name = connectionString.TokenName →
          listServiceAccounts.entry connectionString.TokenName i account =
            "> [" ++ Nat.repr i ++ "] " ++ account.Name ++ "\n") ∧
        (account.Name ≠ connectionString.TokenName →
          listServiceAccounts.entry connectionString.TokenName i account =
            "  [" ++ Nat.repr i ++ "] " ++ account.Name ++ "\n") ∧
        ((listServiceAccounts.entry connectionString.TokenName i account).data.head? = some '>' ↔
          account.Name = connectionString.TokenName) := by
  refine ⟨?_, ?_⟩
  · simp [listServiceAccounts, listServiceAccounts.loop_eq]
  · intro i account
    by_cases h : account.Name = connectionString.TokenName
    · simp [listServiceAccounts.entry, h, String.data_append]
    · simp [listServiceAccounts.entry, h, String.data_append]

/-- C20: `assignServiceAccountToConnection` writes five fields and nothing else:
the result is the context with `TokenName` and `Token` set and the three
client-certificate fields emptied, so `CAPath`, `APIServer`, `Namespace` and the
rest of the context are as before; a token bind made after a successful
certificate bind therefore keeps the key pair's API server, the path of the
temporary CA file and the namespace "default". -/
theorem assignServiceAccount_frame {ρ : Type} (account : ServiceAccount)
    (info : ServerInfo ρ) (keypair : ClientCertificateKeyPair) (fs : TempFile) (rnd : String)
    (hcreate : fs.createTemp = some rnd) (hwrite : fs.writeOk = true) :
    assignServiceAccountToConnection account info =
        { APIServer := info.APIServer, Token := account.Token, TokenName := account.Name,
          ClientCertData := "", ClientKeyData := "", ClientCertName := "",
          CAPath := info.CAPath, Namespace := info.Namespace, Rest := info.Rest } ∧
      (assignServiceAccountToConnection account info).CAPath = info.CAPath ∧
      (assignServiceAccountToConnection account info).APIServer = info.APIServer ∧
      (assignServiceAccountToConnection account info).Namespace = info.Namespace ∧
      (assignServiceAccountToConnection account info).Rest = info.Rest ∧
      ∃ info1, assignAuthenticationCertificateAndKeyToConnection keypair info fs = some info1 ∧
        (assignServiceAccountToConnection account info1).APIServer = keypair.APIServer ∧
        (assignServiceAccountToConnection account info1).CAPath = tmpFileName rnd ∧
        (assignServiceAccountToConnection account info1).Namespace = "default" := by
  refine ⟨rfl, rfl, rfl, rfl, rfl, ?_⟩
  simp [assignAuthenticationCertificateAndKeyToConnection, hcreate, hwrite,
    assignServiceAccountToConnection]

/-- C20 at a concrete input: a certificate bind followed by a token bind. -/
theorem assignServiceAccount_frame_witness :
    ∃ info1 : ServerInfo Unit,
      assignAuthenticationCertificateAndKeyToConnection
        (MakeClientCertificateKeyPair "admin" "cert" "key" "https://10.96.0.1:443" "ca")
        { APIServer := "https://old:6443", Token := "tok", TokenName := "sa",
          ClientCertData := "", ClientKeyData := "", ClientCertName := "",
          CAPath := "/run/ca.crt", Namespace := "kube-system", Rest := () }
        { createTemp := some "123", writeOk := true } = some info1 ∧
      (assignServiceAccountToConnection
        { Name := "sb", Token := "tok2", DiscoveryTime := 1, DiscoveryMethod := "user input" }
        info1).APIServer = "https://10.96.0.1:443" ∧
      (assignServiceAccountToConnection
        { Name := "sb", Token := "tok2", DiscoveryTime := 1, DiscoveryMethod := "user input" }
        info1).CAPath = tmpFileName "123" ∧
      (assignServiceAccountToConnection
        { Name := "sb", Token := "tok2", DiscoveryTime := 1, DiscoveryMethod := "user input" }
        info1).Namespace = "default" :=
  (assignServiceAccount_frame
    { Name := "sb", Token := "tok2", DiscoveryTime := 1, DiscoveryMethod := "user input" }
    { APIServer := "https://old:6443", Token := "tok", TokenName := "sa",
      ClientCertData := "", ClientKeyData := "", ClientCertName := "",
      CAPath := "/run/ca.crt", Namespace := "kube-system", Rest := () }
    (MakeClientCertificateKeyPair "admin" "cert" "key" "https://10.96.0.1:443" "ca")
    { createTemp := some "123", writeOk := true } "123" rfl rfl).2.2.2.2.2

/-- C17 at a concrete input: two identities, the second one active. -/
theorem listServiceAccounts_text_witness :
    listServiceAccounts
        [{ Name := "web", Token := "t1", DiscoveryTime := 1, DiscoveryMethod := "m" },
         { Name := "db", Token := "t2", DiscoveryTime := 2, DiscoveryMethod := "m" }]
        ({ APIServer := "", Token := "t2", TokenName := "db", ClientCertData := "",
           ClientKeyData := "", ClientCertName := "", CAPath := "", Namespace := "",
           Rest := () } : ServerInfo Unit) =
      "  [0] web\n> [1] db\n" :=
  (listServiceAccounts_text
    [{ Name := "web", Token := "t1", DiscoveryTime := 1, DiscoveryMethod := "m" },
     { Name := "db", Token := "t2", DiscoveryTime := 2, DiscoveryMethod := "m" }]
    ({ APIServer := "", Token := "t2", TokenName := "db", ClientCertData := "",
       ClientKeyData := "", ClientCertName := "", CAPath := "", Namespace := "",
       Rest := () } : ServerInfo Unit)).1.trans (by decide)

/-! ## Padding -/

/-- Induction on a list four elements at a time. -/
theorem list_induction_by_four {α : Type} {P : List α → Prop} (h0 : P [])
    (h1 : ∀ a, P [a]) (h2 : ∀ a b, P [a, b]) (h3 : ∀ a b c, P [a, b, c])
    (h4 : ∀ a b c d rest, P rest → P (a :: b :: c :: d :: rest)) : ∀ l, P l
  | [] => h0
  | [a] => h1 a
  | [a, b] => h2 a b
  | [a, b, c] => h3 a b c
  | a :: b :: c :: d :: rest =>
    h4 a b c d rest (list_induction_by_four h0 h1 h2 h3 h4 rest)

/-- An unpadded encoding decodes no text that holds a character outside its
alphabet. -/
theorem base64.decodeChunks_none_of_mem (enc : base64.Encoding) (hpad : enc.padChar = none)
    (l : List Char) (h : ∃ ch ∈ l, enc.decodeMap ch = none) : enc.decodeChunks l = none := by
  induction l using list_induction_by_four with
  | h0 => simp at h
  | h1 a => rfl
  | h2 a b =>
    obtain ⟨ch, hmem, hch⟩ := h
    simp only [List.mem_cons, List.mem_singleton, List.not_mem_nil, or_false] at hmem
    have hab : enc.decodeMap a = none ∨ enc.decodeMap b = none := by
      rcases hmem with e | e
      · exact Or.inl (e ▸ hch)
      · exact Or.inr (e ▸ hch)
    simp only [base64.Encoding.decodeChunks, hpad]
    cases ha : enc.decodeMap a <;> cases hb : enc.decodeMap b <;> simp_all
  | h3 a b c =>
    obtain ⟨ch, hmem, hch⟩ := h
    simp only [List.mem_cons, List.mem_singleton, List.not_mem_nil, or_false] at hmem
    have habc : enc.decodeMap a = none ∨ enc.decodeMap b = none ∨ enc.decodeMap c = none := by
      rcases hmem with e | e | e
      · exact Or.inl (e ▸ hch)
      · exact Or.inr (Or.inl (e ▸ hch))
      · exact Or.inr (Or.inr (e ▸ hch))
    simp only [base64.Encoding.decodeChunks, hpad]
    cases ha : enc.decodeMap a <;> cases hb : enc.decodeMap b <;>
      cases hc : enc.decodeMap c <;> simp_all
  | h4 a b c d rest ih =>
    obtain ⟨ch, hmem, hch⟩ := h
    simp only [base64.Encoding.decodeChunks, hpad]
    cases ha : enc.decodeMap a <;> cases hb : enc.decodeMap b <;>
      cases hc : enc.decodeMap c <;> cases hd : enc.decodeMap d <;> simp
    simp only [List.mem_cons] at hmem
    rcases hmem with e | e | e | e | hrest
    · rw [e] at hch; simp [hch] at ha
    · rw [e] at hch; simp [hch] at hb
    · rw [e] at hch; simp [hch] at hc
    · rw [e] at hch; simp [hch] at hd
    · rw [ih ⟨ch, hrest, hch⟩]

/-- `RawURLEncoding.DecodeString` refuses every text that holds a `=`. -/
theorem base64.rawURL_DecodeString_padded (s : String) (h : '=' ∈ s.data) :
    base64.RawURLEncoding.DecodeString s = none := by
  apply base64.decodeChunks_none_of_mem _ rfl
  refine ⟨'=', ?_, by decide⟩
  rw [List.mem_filter]
  exact ⟨h, by decide⟩

/-- C18, the claim at a concrete input: the payload `{"sub":"a"}` is accepted in
its unpadded encoding and refused, with the decoding error, when the segment
carries its `=` padding. -/
theorem parse_return_sub_rejects_padding :
    parseServiceAccountJWT_return_sub "h.eyJzdWIiOiJhIn0.s" = (0, "a", none) ∧
      parseServiceAccountJWT_return_sub "h.eyJzdWIiOiJhIn0=.s" =
        (0, "", some .decodingPayload) := by
  refine ⟨by decide!, by decide!⟩

/-- C18, amended: the payload decoding accepts the unpadded base64url encoding
only.  On a token of three dot-free segments whose middle segment is the
unpadded encoding of a payload that `json.Unmarshal` reads as an object with the
string `S` under "sub", `parseServiceAccountJWT_return_sub` returns `S`; on
every three-segment token whose middle segment holds a `=` it fails with the
decoding error. -/
theorem parse_return_sub_unpadded_only (S hdr sig : String) (payload : List Nat)
    (claims : List (String × json.Value))
    (hh : '.' ∉ hdr.data) (hs : '.' ∉ sig.data) (hb : ∀ b ∈ payload, b < 256)
    (hj : json.Unmarshal payload = .ok claims)
    (hsub : json.mapIndex claims "sub" = some (.string S)) :
    parseServiceAccountJWT_return_sub
        (hdr ++ "." ++ base64.RawURLEncoding.EncodeToString payload ++ "." ++ sig) =
        (0, S, none) ∧
      ∀ mid : String, '.' ∉ mid.data → '=' ∈ mid.data →
        parseServiceAccountJWT_return_sub (hdr ++ "." ++ mid ++ "." ++ sig) =
          (0, "", some .decodingPayload) := by
  constructor
  · have hm : '.' ∉ (base64.RawURLEncoding.EncodeToString payload).data := by
      intro hmem
      exact (base64.rawURL_encodeChunks_chars payload hb '.' hmem).2.2 rfl
    rw [parse_return_sub_three hdr _ sig hh hm hs,
      base64.rawURL_DecodeString_EncodeToString payload hb]
    simp only [hj, hsub]
  · intro mid hm hpad
    rw [parse_return_sub_three hdr mid sig hh hm hs, base64.rawURL_DecodeString_padded mid hpad]

/-- C18, amended, at a concrete input: the payload `{"sub":"a"}`, unpadded and
padded. -/
theorem parse_return_sub_unpadded_only_witness :
    parseServiceAccountJWT_return_sub
        ("h" ++ "." ++ base64.RawURLEncoding.EncodeToString
          [123, 34, 115, 117, 98, 34, 58, 34, 97, 34, 125] ++ "." ++ "s") = (0, "a", none) ∧
      parseServiceAccountJWT_return_sub ("h" ++ "." ++ "eyJzdWIiOiJhIn0=" ++ "." ++ "s") =
        (0, "", some .decodingPayload) :=
  have h := parse_return_sub_unpadded_only "a" "h" "s"
    [123, 34, 115, 117, 98, 34, 58, 34, 97, 34, 125] [("sub", .string "a")]
    (by decide) (by decide) (by decide) (by rfl) (by rfl)
  ⟨h.1, h.2 "eyJzdWIiOiJhIn0=" (by decide) (by decide)⟩

/-! ## `int64(float64)` on integers -/

/-- With enough fuel, a positive number lies between the powers of two its number
of binary digits gives. -/
theorem float64.bitLenAux_spec (fuel n : Nat) (hn : 0 < n) (hf : n ≤ fuel) :
    0 < float64.bitLenAux fuel n ∧ 2 ^ (float64.bitLenAux fuel n - 1) ≤ n ∧
      n < 2 ^ float64.bitLenAux fuel n := by
  induction fuel generalizing n with
  | zero => omega
  | succ f ih =>
    have hne : n ≠ 0 := by omega
    simp only [float64.bitLenAux, hne, if_false]
    by_cases h1 : n / 2 = 0
    · have hn1 : n = 1 := by omega
      subst hn1
      cases f <;> simp [float64.bitLenAux]
    · obtain ⟨hpos, hlo, hhi⟩ := ih (n / 2) (by omega) (by omega)
      refine ⟨by omega, ?_, ?_⟩
      · have e : float64.bitLenAux f (n / 2) + 1 - 1 = (float64.bitLenAux f (n / 2) - 1) + 1 := by
          omega
        rw [e, Nat.pow_succ]
        omega
      · rw [Nat.pow_succ]
        omega

/-- Rounding a whole number. -/
theorem float64.roundHalfEven_one (a : Nat) : float64.roundHalfEven a 1 = a := by
  simp [float64.roundHalfEven, Nat.mod_one]

/-- The `float64` nearest to a positive integer below `2^53` is the integer:
it is returned as `v * 2 ^ k` with the exponent `-k`. -/
theorem float64.nearest_of_integer (v : Nat) (hv : 0 < v) (h : v < 2 ^ 53) :
    ∃ k : Nat, float64.nearest v 1 = (v * 2 ^ k, - (k : Int)) := by
  obtain ⟨hpos, hlo, hhi⟩ := float64.bitLenAux_spec v v hv (Nat.le_refl v)
  have hL : float64.bitLenAux v v ≤ 53 := by
    by_contra hcon
    have h54 : 53 ≤ float64.bitLenAux v v - 1 := by omega
    have := Nat.pow_le_pow_right (by decide : 0 < 2) h54
    omega
  have hone : float64.bitLenAux 1 1 = 1 := rfl
  have hfl : float64.floorLog2 v 1 = (float64.bitLenAux v v : Int) - 1 := by
    have hc : (0 : Int) ≤ (float64.bitLenAux v v : Int) - 1 := by omega
    have htn : ((float64.bitLenAux v v : Int) - 1).toNat = float64.bitLenAux v v - 1 := by omega
    simp only [float64.floorLog2, float64.bitLen, hone, Nat.cast_one, hc, if_true, htn,
      Nat.one_mul, decide_eq_true_eq, hlo]
  refine ⟨53 - float64.bitLenAux v v, ?_⟩
  have hv0 : v ≠ 0 := by omega
  simp only [float64.nearest, hv0, if_false, hfl]
  have hs : max ((float64.bitLenAux v v : Int) - 1 - 52) (-1074) =
      - ((53 - float64.bitLenAux v v : Nat) : Int) := by omega
  rw [hs]
  by_cases hk : 53 - float64.bitLenAux v v = 0
  · simp [hk, float64.roundHalfEven_one]
  · have hneg : ¬ (0 : Int) ≤ - ((53 - float64.bitLenAux v v : Nat) : Int) := by omega
    simp only [hneg, if_false, neg_neg, Int.toNat_ofNat, float64.roundHalfEven_one]

/-- An integer below `2^53` is a `float64`, so `int64(float64(v))` is `v`: the
conversion of a JSON number without fraction whose magnitude is below `2^53` is
its value. -/
theorem json.Number.toInt64_of_integer (neg : Bool) (mant e : Nat)
    (h : mant * 10 ^ e < 2 ^ 53) :
    (json.Number.mk neg mant (e : Int)).toInt64 =
      if neg then - ((mant * 10 ^ e : Nat) : Int) else ((mant * 10 ^ e : Nat) : Int) := by
  have he : (0 : Int) ≤ (e : Int) := Int.ofNat_nonneg e
  have hmag : ∀ f : Nat × Int, f = float64.nearest (mant * 10 ^ e) 1 →
      (if 0 ≤ f.2 then f.1 * 2 ^ f.2.toNat else f.1 / 2 ^ (- f.2).toNat) = mant * 10 ^ e := by
    intro f hf
    by_cases hv : mant * 10 ^ e = 0
    · rw [hv] at hf
      simp [float64.nearest] at hf
      simp [hf, hv]
    · obtain ⟨k, hk⟩ := float64.nearest_of_integer (mant * 10 ^ e) (by omega) h
      rw [hk] at hf
      subst hf
      by_cases hk0 : k = 0
      · simp [hk0]
      · have hneg : ¬ (0 : Int) ≤ - (k : Int) := by omega
        simp only [hneg, if_false, neg_neg, Int.toNat_ofNat]
        exact Nat.mul_div_cancel _ (Nat.pos_pow_of_pos k (by decide))
  have hm := hmag _ rfl
  simp only [json.Number.toInt64, he, if_true, Int.toNat_ofNat, hm]
  have hb : ((mant * 10 ^ e : Nat) : Int) < 2 ^ 53 := by exact_mod_cast h
  cases neg
  · simp only [Bool.false_eq_true, if_false]
    rw [if_pos]
    constructor <;> omega
  · simp only [if_true]
    rw [if_pos]
    constructor <;> omega

end Peirates
